import Mathlib

/-!
# Cube.FileSystem.Ice.ContextMenu: menu-tree insertion and identifier allocation

Shallow embedding of `Applications/Ice.Com/Context/Sources/Context/ContextMenu.cpp`.

* `UINT` values are natural numbers below `4294967296`; every `UINT` operation of the
  source (`cmdid + 1`, `++cmdid`, `index++`, `current - first`) is written with an explicit
  reduction modulo `4294967296`.
* A host menu (`HMENU`) is the list of its items; an item that owns a submenu carries the
  list of the submenu. `CreateMenu` gives the empty list, `InsertMenuItem` / `InsertMenu`
  by position insert into the list.
* `Items()` (a `std::map` keyed by `int`) is an association list with the two operations
  the source uses: `find` and the non-overwriting `insert`.
* Text is modelled by `String` (the content up to the terminating NUL).
-/

namespace Cube.FileSystem.Ice

/-! ## Machine integers -/

/-- Subtraction of two `UINT` values (`a - b` in 32-bit unsigned arithmetic). -/
def usub (a b : Nat) : Nat := (a % 4294967296 + (4294967296 - b % 4294967296)) % 4294967296

/-- Conversion of an unsigned value to `int` (`static_cast<int>`, two-complement). -/
def toInt32 (n : Nat) : Int :=
  if n % 4294967296 < 2147483648 then ((n % 4294967296 : Nat) : Int)
  else ((n % 4294967296 : Nat) : Int) - 4294967296

/-- Win32 `HIWORD`: bits 16..31 of the value. -/
def HIWORD (l : Nat) : Nat := (l >>> 16) &&& 0xffff

/-- Win32 `LOWORD`: bits 0..15 of the value. -/
def LOWORD (l : Nat) : Nat := l &&& 0xffff

/-- Win32 `MAKE_SCODE(sev, fac, code)`. -/
def MAKE_SCODE (sev fac code : Nat) : Nat := ((sev <<< 31) ||| (fac <<< 16) ||| code) % 4294967296

def SEVERITY_SUCCESS : Nat := 0
def FACILITY_NULL : Nat := 0
def NO_ERROR : Nat := 0
def S_OK : Nat := 0
def S_FALSE : Nat := 1
def E_INVALIDARG : Nat := 0x80070057
def CMF_DEFAULTONLY : Nat := 0x00000001
def GCS_VERBA : Nat := 0x00000000
def GCS_VERBW : Nat := 0x00000004
def GCS_HELPTEXTA : Nat := 0x00000001
def GCS_VALIDATEA : Nat := 0x00000002
def GCS_HELPTEXTW : Nat := 0x00000005
def GCS_VALIDATEW : Nat := 0x00000006

/-! ## Data model -/

/-- A configured menu entry (`ContextMenuItem`), with the five accessors the source uses. -/
inductive ContextMenuItem where
  | mk (DisplayName FileName Arguments IconLocation : String)
      (Children : List ContextMenuItem) : ContextMenuItem

def ContextMenuItem.DisplayName : ContextMenuItem → String
  | .mk n _ _ _ _ => n

def ContextMenuItem.FileName : ContextMenuItem → String
  | .mk _ f _ _ _ => f

def ContextMenuItem.Arguments : ContextMenuItem → String
  | .mk _ _ a _ _ => a

def ContextMenuItem.IconLocation : ContextMenuItem → String
  | .mk _ _ _ l _ => l

def ContextMenuItem.Children : ContextMenuItem → List ContextMenuItem
  | .mk _ _ _ _ cs => cs

/-- The identifier index `Items()`: a map from `int` to entries. -/
abbrev ContextMenuMap := List (Int × ContextMenuItem)

/-- The `find` operation of the map: the entry stored under the key, if any. -/
def ContextMenuMap.find (m : ContextMenuMap) (k : Int) : Option ContextMenuItem :=
  List.lookup k m

/-- The `insert` operation of the map: a key that is already present keeps its entry. -/
def ContextMenuMap.insert (m : ContextMenuMap) (k : Int) (v : ContextMenuItem) :
    ContextMenuMap :=
  match List.lookup k m with
  | some _ => m
  | none => m ++ [(k, v)]

/-- An item of a host menu. A separator carries no identifier (for `MF_SEPARATOR` the host
ignores the identifier argument of `InsertMenu`). A string item carries `wID`,
`dwTypeData`, the icon location handed to `SetMenuIcon` (if any) and `hSubMenu`. -/
inductive HostItem where
  | separator : HostItem
  | item (wID : Nat) (dwTypeData : String) (icon : Option String)
      (hSubMenu : Option (List HostItem)) : HostItem

/-- A host menu container. -/
abbrev HMENU := List HostItem

/-- Insertion by position (`MF_BYPOSITION`, `fByPosition = TRUE`): a position at or past the
end appends. -/
def insertByPosition (menu : HMENU) (pos : Nat) (it : HostItem) : HMENU :=
  menu.take pos ++ it :: menu.drop pos

/-- The part of `ContextSettings` the source reads. -/
structure ContextSettings where
  Preset : Nat
  IsCustomized : Bool
  Custom : List ContextMenuItem

/-- The per-instance state of `ContextMenu`. `icon_` tells whether the icon pointer is
non-null, `program` is the value of `Program()`. -/
structure ContextMenu where
  objCount_ : Nat
  drop_ : String
  settings_ : ContextSettings
  icon_ : Bool
  items_ : ContextMenuMap
  files_ : List String
  program : String

/-- What one call of `Insert` leaves behind: the return value, the target container and
the two cursors passed by reference, and `Items()`. -/
structure InsertResult where
  ret : Bool
  dest : HMENU
  index : Nat
  cmdid : Nat
  items : ContextMenuMap

/-! ## `ContextMenu::Insert` -/

mutual
/-- The single-entry `Insert` (source lines 336-365). The submenu made by `CreateMenu` is
filled by the recursive call before it is attached to the item; when the call returns
false the submenu stays detached from the target container. -/
def ContextMenu.Insert (icon : Bool) (first : Nat) :
    ContextMenuItem → HMENU → Nat → Nat → ContextMenuMap → InsertResult
  | .mk name file args loc children, dest, index, cmdid, items =>
    if file.isEmpty && children.isEmpty then ⟨false, dest, index, cmdid, items⟩
    else
      let current := cmdid
      let bmp : Option String := if !loc.isEmpty && icon then some loc else none
      if !children.isEmpty then
        let tmp := (cmdid + 1) % 4294967296
        let r := ContextMenu.InsertFrom icon first tmp children [] 0 tmp items
        if !r.ret then ⟨false, dest, index, cmdid, r.items⟩
        else
          ⟨true,
           insertByPosition dest index (HostItem.item current name bmp (some r.dest)),
           (index + 1) % 4294967296,
           r.cmdid,
           r.items.insert (toInt32 (usub current first)) (.mk name file args loc children)⟩
      else
        ⟨true,
         insertByPosition dest index (HostItem.item current name bmp none),
         (index + 1) % 4294967296,
         (cmdid + 1) % 4294967296,
         items.insert (toInt32 (usub current first)) (.mk name file args loc children)⟩
/-- The loop of the list `Insert` (source lines 379-380); `current` is the value of
`cmdid` saved before the loop. -/
def ContextMenu.InsertFrom (icon : Bool) (first : Nat) (current : Nat) :
    List ContextMenuItem → HMENU → Nat → Nat → ContextMenuMap → InsertResult
  | [], dest, index, cmdid, items => ⟨decide (cmdid > current), dest, index, cmdid, items⟩
  | ctx :: rest, dest, index, cmdid, items =>
    let r := ContextMenu.Insert icon first ctx dest index cmdid items
    ContextMenu.InsertFrom icon first current rest r.dest r.index r.cmdid r.items
end

/-- The list `Insert` (source lines 376-381). -/
def ContextMenu.InsertList (icon : Bool) (first : Nat) (src : List ContextMenuItem)
    (dest : HMENU) (index cmdid : Nat) (items : ContextMenuMap) : InsertResult :=
  ContextMenu.InsertFrom icon first cmdid src dest index cmdid items

/-! ## `ContextMenu::QueryContextMenu` -/

/-- `UpdateStyle` rewrites the style word of the menu and of its submenus; it touches no
item and no identifier, so on the item-level model it is the identity. -/
def ContextMenu.UpdateStyle (menu : HMENU) : HMENU := menu

/-- What `QueryContextMenu` leaves behind: the returned `HRESULT`, the instance and the
host menu. -/
structure QueryResult where
  hr : Nat
  self : ContextMenu
  menu : HMENU

/-- The tree selected by `QueryContextMenu` (source lines 208-210); `presets` stands for
`GetContextMenuItems`. -/
def ContextMenu.selected (presets : Nat → String → List ContextMenuItem)
    (self : ContextMenu) : List ContextMenuItem :=
  if self.settings_.IsCustomized then self.settings_.Custom
  else presets self.settings_.Preset self.program

/-- `QueryContextMenu` (source lines 202-218). The parameter `last` is unused, as in the
source. -/
def ContextMenu.QueryContextMenu (presets : Nat → String → List ContextMenuItem)
    (self : ContextMenu) (menu : HMENU) (index first _last flags : Nat) : QueryResult :=
  if (flags &&& CMF_DEFAULTONLY) ≠ 0 then ⟨NO_ERROR, self, menu⟩
  else if self.settings_.Preset = 0 then ⟨NO_ERROR, self, menu⟩
  else
    let menu1 := if self.drop_.isEmpty then insertByPosition menu index HostItem.separator
      else menu
    let index1 := if self.drop_.isEmpty then (index + 1) % 4294967296 else index
    let items := ContextMenu.selected presets self
    let r := ContextMenu.InsertList self.icon_ first items menu1 index1 first self.items_
    let menu2 := if usub r.cmdid first > 0
      then insertByPosition r.dest r.index HostItem.separator else r.dest
    ⟨MAKE_SCODE SEVERITY_SUCCESS FACILITY_NULL (usub r.cmdid first),
     { self with items_ := r.items },
     ContextMenu.UpdateStyle menu2⟩

/-! ## `ContextMenu::GetCommandString` and `ContextMenu::InvokeCommand` -/

/-- The CRT call `strncpy_s` / `wcsncpy_s` with `_TRUNCATE`: at most `size - 1` characters
are copied and the result is terminated; with `size = 0` the invalid-parameter handler
runs and the call does not return normally (`none`). -/
def copyTruncate (size : Nat) (s : String) : Option String :=
  if size = 0 then none else some (String.mk (s.toList.take (size - 1)))

/-- `GetCommandString` (source lines 238-263): the returned `HRESULT` and the buffer.
`toMultiByte` stands for `Encoding::UnicodeToMultiByte`. -/
def ContextMenu.GetCommandString (toMultiByte : String → String) (self : ContextMenu)
    (index flags : Nat) (buffer : String) (size : Nat) : Option (Nat × String) :=
  match self.items_.find (toInt32 index) with
  | none => some (S_FALSE, buffer)
  | some e =>
    if flags = GCS_VERBA then
      (copyTruncate size (toMultiByte e.DisplayName)).map (fun b => (S_OK, b))
    else if flags = GCS_VERBW then
      (copyTruncate size e.DisplayName).map (fun b => (S_OK, b))
    else some (S_OK, buffer)

/-- The command line built by `InvokeCommand` (source lines 287-291). -/
def ContextMenu.commandLine (self : ContextMenu) (e : ContextMenuItem) : String :=
  let s0 := "\"" ++ self.program ++ "\""
  let s1 := if !e.Arguments.isEmpty then s0 ++ " " ++ e.Arguments else s0
  let s2 := if !self.drop_.isEmpty then s1 ++ " \"/drop:" ++ self.drop_ ++ "\"" else s1
  self.files_.foldl (fun ss file => ss ++ " \"" ++ file ++ "\"") s2

/-- What `InvokeCommand` leaves behind: the returned `HRESULT`, the command line handed to
`CreateProcess` (if the call was reached) and whether a process was started. -/
structure InvokeResult where
  hr : Nat
  command : Option String
  started : Bool

/-- `InvokeCommand` (source lines 280-307). `lpVerb` is the pointer-sized verb value and
`createProcess` the outcome of the host launch for a command line; the source ignores that
outcome. -/
def ContextMenu.InvokeCommand (createProcess : String → Bool) (self : ContextMenu)
    (lpVerb : Nat) : InvokeResult :=
  if HIWORD lpVerb ≠ 0 then ⟨E_INVALIDARG, none, false⟩
  else
    match self.items_.find (Int.ofNat (LOWORD lpVerb)) with
    | none => ⟨E_INVALIDARG, none, false⟩
    | some e =>
      let cmd := ContextMenu.commandLine self e
      ⟨S_OK, some cmd, createProcess cmd⟩

/-! ## Lifetime: constructor, `AddRef`, `Release`, `QueryInterface` -/

def NOERROR : Nat := 0
def E_NOINTERFACE : Nat := 0x80004002

/-- `IID_IUnknown`, `{00000000-0000-0000-C000-000000000046}`. -/
def IID_IUnknown : Nat := 0x0000000000000000C000000000000046

/-- `IID_IContextMenu`, `{000214E4-0000-0000-C000-000000000046}`. -/
def IID_IContextMenu : Nat := 0x000214E400000000C000000000000046

/-- `IID_IShellExtInit`, `{000214E8-0000-0000-C000-000000000046}`. -/
def IID_IShellExtInit : Nat := 0x000214E800000000C000000000000046

/-- The constructor (source lines 43-59): the instance and the DLL counter after it.
`settings` is what `Settings().Load()` leaves behind (the defaults when the load throws),
`count` is the DLL reference counter the instance is created with. -/
def ContextMenu.ctor (count : Nat) (icon : Bool) (settings : ContextSettings)
    (program : String) : ContextMenu × Nat :=
  (⟨1, "", settings, icon, [], [], program⟩, (count + 1) % 4294967296)

/-- `AddRef` (source lines 87-89): the instance and the returned count. -/
def ContextMenu.AddRef (self : ContextMenu) : ContextMenu × Nat :=
  let count := (self.objCount_ + 1) % 4294967296
  ({ self with objCount_ := count }, count)

/-- What `Release` leaves behind: the instance (`none` after `delete this`), the DLL
counter and the returned count. -/
structure ReleaseResult where
  self : Option ContextMenu
  dllCount : Nat
  ret : Nat

/-- `InterlockedDecrement` on a 32-bit value: the value minus one, modulo `2^32`. -/
def udec (a : Nat) : Nat := (4294967295 + a) % 4294967296

/-- `Release` (source lines 104-109); the destructor decrements the DLL counter. -/
def ContextMenu.Release (self : ContextMenu) (dllCount : Nat) : ReleaseResult :=
  let count := udec self.objCount_
  if count ≠ 0 then ⟨some { self with objCount_ := count }, dllCount, count⟩
  else ⟨none, udec dllCount, 0⟩

/-- A lifetime call of the host. -/
inductive RefCall where
  | addRef : RefCall
  | release : RefCall
deriving DecidableEq

/-- One served lifetime call: the call, the count it returned and whether it destroyed the
instance. -/
structure RefEvent where
  call : RefCall
  ret : Nat
  destroyed : Bool

/-- A sequence of lifetime calls on a live instance; no call is made on the instance once
it is destroyed. -/
def ContextMenu.refCalls : ContextMenu → Nat → List RefCall → List RefEvent
  | _, _, [] => []
  | self, dll, RefCall.addRef :: rest =>
    ⟨RefCall.addRef, (ContextMenu.AddRef self).2, false⟩
      :: ContextMenu.refCalls (ContextMenu.AddRef self).1 dll rest
  | self, dll, RefCall.release :: rest =>
    match (ContextMenu.Release self dll).self with
    | some s =>
      ⟨RefCall.release, (ContextMenu.Release self dll).ret, false⟩
        :: ContextMenu.refCalls s (ContextMenu.Release self dll).dllCount rest
    | none => [⟨RefCall.release, (ContextMenu.Release self dll).ret, true⟩]

/-- The interface pointer `QueryInterface` stores: `static_cast<LPCONTEXTMENU>(this)` or
`static_cast<LPSHELLEXTINIT>(this)`. -/
inductive InterfacePtr where
  | contextMenu : InterfacePtr
  | shellExtInit : InterfacePtr
deriving DecidableEq

/-- What `QueryInterface` leaves behind: the returned `HRESULT`, the output pointer
(`none` for null) and the instance. -/
structure QueryInterfaceResult where
  hr : Nat
  obj : Option InterfacePtr
  self : ContextMenu

/-- `QueryInterface` (source lines 127-136). -/
def ContextMenu.QueryInterface (self : ContextMenu) (iid : Nat) : QueryInterfaceResult :=
  let obj : Option InterfacePtr :=
    if iid = IID_IUnknown then some InterfacePtr.contextMenu
    else if iid = IID_IContextMenu then some InterfacePtr.contextMenu
    else if iid = IID_IShellExtInit then some InterfacePtr.shellExtInit
    else none
  match obj with
  | none => ⟨E_NOINTERFACE, none, self⟩
  | some p => ⟨NOERROR, some p, (ContextMenu.AddRef self).1⟩

/-! ## Calls between two queries -/

/-- A call of `GetCommandString` or `InvokeCommand` with its arguments. -/
inductive HostCall where
  | getCommandString (index flags : Nat) (buffer : String) (size : Nat) : HostCall
  | invokeCommand (lpVerb : Nat) : HostCall

/-- The instance after a call of `GetCommandString` (source lines 238-263) or
`InvokeCommand` (source lines 280-307): neither method assigns a member, `Items()` is only
searched and `Files()` and `drop_` are only read. -/
def ContextMenu.afterCall (self : ContextMenu) : HostCall → ContextMenu
  | HostCall.getCommandString _ _ _ _ => self
  | HostCall.invokeCommand _ => self

/-- The instance after a sequence of such calls. -/
def ContextMenu.afterCalls : ContextMenu → List HostCall → ContextMenu
  | self, [] => self
  | self, c :: rest => ContextMenu.afterCalls (ContextMenu.afterCall self c) rest

/-! ## Observations on host menus and entry trees

The definitions of this section are not functions of the source: they read off host menus
and entry trees what the statements below speak about. -/

mutual
/-- The string items below a host item, itself first (pre-order), as identifier and text. -/
def HostItem.entries : HostItem → List (Nat × String)
  | .separator => []
  | .item wID text _ none => [(wID, text)]
  | .item wID text _ (some sub) => (wID, text) :: HostItem.entriesList sub
/-- The string items of a host menu and of all its submenus, in pre-order. -/
def HostItem.entriesList : List HostItem → List (Nat × String)
  | [] => []
  | it :: rest => HostItem.entries it ++ HostItem.entriesList rest
end

/-- The identifiers carried by the items of a host menu and of all its submenus. -/
def hostIds (menu : List HostItem) : List Nat := (HostItem.entriesList menu).map Prod.fst

mutual
/-- The number of valid entries at and below an entry: an entry is valid unless both its
file name and its children are empty. -/
def validCount : ContextMenuItem → Nat
  | .mk _ file _ _ children =>
    (if file.isEmpty && children.isEmpty then 0 else 1) + validCountList children
/-- The number of valid entries reachable in a tree. -/
def validCountList : List ContextMenuItem → Nat
  | [] => 0
  | e :: rest => validCount e + validCountList rest
end

mutual
/-- The number of entries at and below an entry that the walk keeps: a childless entry with
a file name, or an entry with children of which at least one is kept. -/
def keptCount : ContextMenuItem → Nat
  | .mk _ file _ _ children =>
    if file.isEmpty && children.isEmpty then 0
    else if !children.isEmpty then
      (if keptCountList children = 0 then 0 else keptCountList children + 1)
    else 1
/-- The number of kept entries reachable in a tree. -/
def keptCountList : List ContextMenuItem → Nat
  | [] => 0
  | e :: rest => keptCount e + keptCountList rest
end

mutual
/-- The host item the walk builds for an entry that starts at identifier `c` (none when
the entry is not kept), when the cursor does not wrap. -/
def built (icon : Bool) : ContextMenuItem → Nat → List HostItem
  | .mk name file args loc children, c =>
    if keptCount (.mk name file args loc children) = 0 then []
    else
      [HostItem.item c name (if !loc.isEmpty && icon then some loc else none)
        (if children.isEmpty then none else some (builtList icon children (c + 1)))]
/-- The host items the walk builds for a sibling list that starts at identifier `c`. -/
def builtList (icon : Bool) : List ContextMenuItem → Nat → List HostItem
  | [], _ => []
  | e :: rest, c => built icon e c ++ builtList icon rest (c + keptCount e)
end

mutual
/-- The identifier and entry pairs the walk records for an entry that starts at identifier
`c`, in recording order (children before their parent). -/
def recorded : ContextMenuItem → Nat → List (Nat × ContextMenuItem)
  | .mk name file args loc children, c =>
    if keptCount (.mk name file args loc children) = 0 then []
    else recordedList children (c + 1) ++ [(c, .mk name file args loc children)]
/-- The pairs the walk records for a sibling list that starts at identifier `c`. -/
def recordedList : List ContextMenuItem → Nat → List (Nat × ContextMenuItem)
  | [], _ => []
  | e :: rest, c => recorded e c ++ recordedList rest (c + keptCount e)
end

/-- Items inserted one after the other at an advancing position. -/
def pushAll : HMENU → Nat → List HostItem → HMENU × Nat
  | menu, index, [] => (menu, index)
  | menu, index, it :: rest =>
    pushAll (insertByPosition menu index it) ((index + 1) % 4294967296) rest

/-- Pairs recorded one after the other under their offset from `first`. -/
def recordAll (first : Nat) : ContextMenuMap → List (Nat × ContextMenuItem) → ContextMenuMap
  | items, [] => items
  | items, (c, e) :: rest => recordAll first (items.insert (toInt32 (usub c first)) e) rest

mutual
/-- Whether, at and below a host item, every item that owns a submenu carries an
identifier strictly below the identifiers of all items in that submenu tree. -/
def HostItem.parentBelow : HostItem → Bool
  | .separator => true
  | .item _ _ _ none => true
  | .item wID _ _ (some sub) =>
    (HostItem.entriesList sub).all (fun p => decide (wID < p.1)) && HostItem.parentBelowList sub
/-- The same for every item of a host menu. -/
def HostItem.parentBelowList : List HostItem → Bool
  | [] => true
  | it :: rest => HostItem.parentBelow it && HostItem.parentBelowList rest
end

/-! ## The mirror of a tree and the insertable entries, in the words of the specification -/

mutual
/-- Whether every leaf at and below an entry has a non-empty file name. -/
def leavesNamed : ContextMenuItem → Bool
  | .mk _ file _ _ children =>
    if children.isEmpty then !file.isEmpty else leavesNamedList children
/-- Whether every leaf of a tree has a non-empty file name. -/
def leavesNamedList : List ContextMenuItem → Bool
  | [] => true
  | e :: rest => leavesNamed e && leavesNamedList rest
end

mutual
/-- Whether a host item mirrors an entry: it is a string item whose text is the display
name of the entry; a leaf has no submenu; an entry with children has a submenu that
mirrors the children in declaration order. -/
def mirrors : ContextMenuItem → HostItem → Bool
  | _, HostItem.separator => false
  | .mk name _ _ _ children, HostItem.item _ text _ none =>
    (text == name) && children.isEmpty
  | .mk name _ _ _ children, HostItem.item _ text _ (some sub) =>
    (text == name) && !children.isEmpty && mirrorsList children sub
/-- Whether the items of a host container mirror a sibling list, position by position. -/
def mirrorsList : List ContextMenuItem → List HostItem → Bool
  | [], [] => true
  | [], _ :: _ => false
  | _ :: _, [] => false
  | e :: es, h :: hs => mirrors e h && mirrorsList es hs
end

mutual
/-- Whether an entry is effectively insertable: a childless entry with a non-empty file
name, or an entry with at least one effectively insertable child. -/
def insertable : ContextMenuItem → Bool
  | .mk _ file _ _ children =>
    if children.isEmpty then !file.isEmpty else insertableAny children
/-- Whether a sibling list holds an effectively insertable entry. -/
def insertableAny : List ContextMenuItem → Bool
  | [] => false
  | e :: rest => insertable e || insertableAny rest
end

mutual
/-- The number of effectively insertable entries at and below an entry. -/
def insertableCount : ContextMenuItem → Nat
  | .mk name file args loc children =>
    (if insertable (.mk name file args loc children) then 1 else 0)
      + insertableCountList children
/-- The number of effectively insertable entries in a tree. -/
def insertableCountList : List ContextMenuItem → Nat
  | [] => 0
  | e :: rest => insertableCount e + insertableCountList rest
end

/-! ## Sample inputs -/

/-- No preset trees: `GetContextMenuItems` returning the empty list. -/
def noPresets : Nat → String → List ContextMenuItem := fun _ _ => []

/-- A tree of depth 2: a leaf followed by an entry with three leaf children, all with a
file name. -/
def sampleTree : List ContextMenuItem :=
  [.mk "Leaf" "leaf.exe" "" "" [],
   .mk "Parent" "parent.exe" "" ""
     [.mk "Child1" "c1.exe" "/a" "" [], .mk "Child2" "c2.exe" "/b" "" [],
      .mk "Child3" "c3.exe" "/c" "" []]]

/-- A tree whose first entry has one child, followed by two leaves. -/
def wrapTree : List ContextMenuItem :=
  [.mk "P" "p.exe" "" "" [.mk "C" "c.exe" "" "" []],
   .mk "D" "d.exe" "" "" [],
   .mk "E" "e.exe" "" "" []]

/-- A fresh instance (reference count 1, no drop target, empty index, no selection) whose
settings hold the given customized tree. -/
def sampleSelf (tree : List ContextMenuItem) : ContextMenu :=
  ⟨1, "", ⟨1, true, tree⟩, false, [], [], "C:\\Tool\\app.exe"⟩

/-- A tree whose only entry has a file name and one child that is invalid. -/
def hollowTree : List ContextMenuItem :=
  [.mk "P" "p.exe" "" "" [.mk "X" "" "" "" []]]

/-- A tree of two leaves. -/
def pairTree : List ContextMenuItem :=
  [.mk "A" "a.exe" "" "" [], .mk "B" "b.exe" "" "" []]

/-- A tree of three leaves. -/
def tripleTree : List ContextMenuItem :=
  [.mk "A" "a.exe" "" "" [], .mk "B" "b.exe" "" "" [], .mk "C" "c.exe" "" "" []]

/-! ## The command line in the words of the specification -/

/-- The selected paths, each preceded by a space and put in double quotes, in order. -/
def quotedPaths : List String → String
  | [] => ""
  | file :: rest => " \"" ++ file ++ "\"" ++ quotedPaths rest

/-- The command line as the specification words it: the quoted program path; a space and
the arguments when they are non-empty; a space and the quoted `/drop:` marker when a drop
target is set; every selected path quoted and preceded by a space. -/
def specCommandLine (program arguments drop : String) (selection : List String) : String :=
  "\"" ++ program ++ "\""
    ++ (if arguments.isEmpty then "" else " " ++ arguments)
    ++ (if drop.isEmpty then "" else " \"/drop:" ++ drop ++ "\"")
    ++ quotedPaths selection

/-- An instance after `Initialize`: drop target `D:\Out`, selection `A.txt`, `B.txt`, and
an index that maps offset 0 to an entry with the arguments `-x`. -/
def droppedSelf : ContextMenu :=
  ⟨1, "D:\\Out", ⟨1, true, [.mk "Extract" "app.exe" "-x" "" []]⟩, false,
   [(0, .mk "Extract" "app.exe" "-x" "" [])], ["A.txt", "B.txt"], "C:\\Tool\\app.exe"⟩

/-! ## Lemmas

### The walk without wrap-around -/

theorem pushAll_append (menu : HMENU) (index : Nat) (l1 l2 : List HostItem) :
    pushAll menu index (l1 ++ l2)
      = pushAll (pushAll menu index l1).1 (pushAll menu index l1).2 l2 := by
  induction l1 generalizing menu index with
  | nil => rfl
  | cons a l ih => simp [pushAll, ih]

theorem recordAll_append (first : Nat) (items : ContextMenuMap)
    (l1 l2 : List (Nat × ContextMenuItem)) :
    recordAll first items (l1 ++ l2) = recordAll first (recordAll first items l1) l2 := by
  induction l1 generalizing items with
  | nil => rfl
  | cons a l ih => obtain ⟨c, e⟩ := a; simp [recordAll, ih]

theorem pushAll_end (menu : HMENU) (l : List HostItem)
    (h : menu.length + l.length < 4294967296) :
    pushAll menu menu.length l = (menu ++ l, menu.length + l.length) := by
  induction l generalizing menu with
  | nil => simp [pushAll]
  | cons a l ih =>
    have h1 : (menu.length + 1) % 4294967296 = (menu ++ [a]).length := by
      simp only [List.length_append, List.length_cons, List.length_nil] at h ⊢
      omega
    have h2 : insertByPosition menu menu.length a = menu ++ [a] := by
      simp [insertByPosition]
    rw [pushAll, h1, h2, ih]
    · simp; omega
    · simp at h ⊢; omega

mutual
theorem builtList_length_le (icon : Bool) :
    ∀ (l : List ContextMenuItem) (c : Nat), (builtList icon l c).length ≤ keptCountList l
  | [], _ => by simp [builtList]
  | e :: rest, c => by
    have h1 := built_length_le icon e c
    have h2 := builtList_length_le icon rest (c + keptCount e)
    simp only [builtList, keptCountList, List.length_append]
    omega
theorem built_length_le (icon : Bool) :
    ∀ (e : ContextMenuItem) (c : Nat), (built icon e c).length ≤ keptCount e
  | .mk name file args loc children, c => by
    unfold built
    split
    · simp
    · simp; omega
end

mutual
theorem Insert_skip (icon : Bool) (first : Nat) :
    ∀ (e : ContextMenuItem) (dest : HMENU) (index c : Nat) (items : ContextMenuMap),
      keptCount e = 0 →
      ContextMenu.Insert icon first e dest index c items = ⟨false, dest, index, c, items⟩
  | .mk name file args loc [], dest, index, c, items, h => by
    by_cases hf : file.isEmpty = true
    · simp [ContextMenu.Insert, hf]
    · simp [keptCount, hf] at h
  | .mk name file args loc (x :: xs), dest, index, c, items, h => by
    have hk : keptCountList (x :: xs) = 0 := by
      by_contra hne
      simp [keptCount, hne] at h
    have ih := InsertFrom_skip icon first ((c + 1) % 4294967296) (x :: xs) [] 0
      ((c + 1) % 4294967296) items hk
    simp [ContextMenu.Insert, ih]
theorem InsertFrom_skip (icon : Bool) (first : Nat) (cur : Nat) :
    ∀ (l : List ContextMenuItem) (dest : HMENU) (index c : Nat) (items : ContextMenuMap),
      keptCountList l = 0 →
      ContextMenu.InsertFrom icon first cur l dest index c items
        = ⟨decide (c > cur), dest, index, c, items⟩
  | [], dest, index, c, items, _ => by simp [ContextMenu.InsertFrom]
  | e :: rest, dest, index, c, items, h => by
    simp only [keptCountList, Nat.add_eq_zero] at h
    rw [ContextMenu.InsertFrom]
    simp only [Insert_skip icon first e dest index c items h.1]
    exact InsertFrom_skip icon first cur rest dest index c items h.2
end

mutual
theorem Insert_eq (icon : Bool) (first : Nat) :
    ∀ (e : ContextMenuItem) (dest : HMENU) (index c : Nat) (items : ContextMenuMap),
      c + keptCount e < 4294967296 →
      ContextMenu.Insert icon first e dest index c items
        = ⟨decide (0 < keptCount e), (pushAll dest index (built icon e c)).1,
            (pushAll dest index (built icon e c)).2, c + keptCount e,
            recordAll first items (recorded e c)⟩
  | .mk name file args loc [], dest, index, c, items, h => by
    by_cases hf : file.isEmpty = true
    · simp [ContextMenu.Insert, hf, keptCount, built, recorded, pushAll, recordAll]
    · simp only [keptCount, hf, Bool.false_and, List.isEmpty_nil, Bool.not_true,
        if_false, Bool.false_eq_true] at h
      have hc : (c + 1) % 4294967296 = c + 1 := Nat.mod_eq_of_lt h
      simp [ContextMenu.Insert, hf, keptCount, built, recorded, pushAll, recordAll, hc]
  | .mk name file args loc (x :: xs), dest, index, c, items, h => by
    by_cases hk : keptCountList (x :: xs) = 0
    · have h0 : keptCount (.mk name file args loc (x :: xs)) = 0 := by
        simp [keptCount, hk]
      rw [Insert_skip icon first _ dest index c items h0]
      simp [h0, built, recorded, pushAll, recordAll]
    · have h1 : keptCount (.mk name file args loc (x :: xs)) = keptCountList (x :: xs) + 1 := by
        simp [keptCount, hk]
      rw [h1] at h
      have hc : (c + 1) % 4294967296 = c + 1 := Nat.mod_eq_of_lt (by omega)
      have ih := InsertFrom_eq icon first (c + 1) (x :: xs) [] 0 (c + 1) items (by omega)
      have hlen := builtList_length_le icon (x :: xs) (c + 1)
      have hp := pushAll_end [] (builtList icon (x :: xs) (c + 1))
        (by simp only [List.length_nil]; omega)
      simp only [List.length_nil, List.nil_append] at hp
      have hpos : 0 < keptCountList (x :: xs) := Nat.pos_of_ne_zero hk
      simp [ContextMenu.Insert, hc, ih, hp, h1, built, recorded, pushAll, recordAll,
        recordAll_append, hpos, Nat.add_assoc, Nat.add_comm 1]
theorem InsertFrom_eq (icon : Bool) (first : Nat) (cur : Nat) :
    ∀ (l : List ContextMenuItem) (dest : HMENU) (index c : Nat) (items : ContextMenuMap),
      c + keptCountList l < 4294967296 →
      ContextMenu.InsertFrom icon first cur l dest index c items
        = ⟨decide (c + keptCountList l > cur), (pushAll dest index (builtList icon l c)).1,
            (pushAll dest index (builtList icon l c)).2, c + keptCountList l,
            recordAll first items (recordedList l c)⟩
  | [], dest, index, c, items, _ => by
    simp [ContextMenu.InsertFrom, keptCountList, builtList, recordedList, pushAll, recordAll]
  | e :: rest, dest, index, c, items, h => by
    simp only [keptCountList] at h
    rw [ContextMenu.InsertFrom]
    simp only [Insert_eq icon first e dest index c items (by omega)]
    rw [InsertFrom_eq icon first cur rest _ _ (c + keptCount e) _ (by omega)]
    simp [keptCountList, builtList, recordedList, pushAll_append, recordAll_append,
      Nat.add_assoc]
end

/-! ### Arithmetic of identifiers and keys -/

theorem usub_add_left (first k : Nat) (h : first + k < 4294967296) :
    usub (first + k) first = k := by
  unfold usub
  omega

theorem toInt32_inj (a b : Nat) (ha : a < 4294967296) (hb : b < 4294967296)
    (h : toInt32 a = toInt32 b) : a = b := by
  unfold toInt32 at h
  rw [Nat.mod_eq_of_lt ha, Nat.mod_eq_of_lt hb] at h
  split at h <;> split at h <;> omega

theorem MAKE_SCODE_success (c : Nat) (h : c < 4294967296) :
    MAKE_SCODE SEVERITY_SUCCESS FACILITY_NULL c = c := by
  simp [MAKE_SCODE, SEVERITY_SUCCESS, FACILITY_NULL, Nat.mod_eq_of_lt h]

/-! ### The index -/

theorem lookup_cons_ne (l : List (Int × ContextMenuItem)) (k k1 : Int) (v : ContextMenuItem)
    (h : k ≠ k1) : List.lookup k ((k1, v) :: l) = List.lookup k l := by
  have hb : (k == k1) = false := by simpa using h
  simp [List.lookup_cons, hb]

theorem find_insert (m : ContextMenuMap) (k k1 : Int) (v : ContextMenuItem) :
    (m.insert k1 v).find k = (m.find k).or (if k = k1 then some v else none) := by
  unfold ContextMenuMap.insert ContextMenuMap.find
  cases h : List.lookup k1 m with
  | some w =>
    simp only
    by_cases hk : k = k1
    · subst hk; simp [h]
    · simp [hk]
  | none =>
    simp only [List.lookup_append]
    congr 1
    by_cases hk : k = k1
    · subst hk; simp
    · simp [lookup_cons_ne _ _ _ _ hk, hk]

theorem find_recordAll (first : Nat) (recs : List (Nat × ContextMenuItem)) :
    ∀ (m : ContextMenuMap) (k : Int),
      (recordAll first m recs).find k
        = (m.find k).or (List.lookup k (recs.map (fun p => (toInt32 (usub p.1 first), p.2)))) := by
  induction recs with
  | nil => intro m k; simp [recordAll]
  | cons a rest ih =>
    intro m k
    obtain ⟨c, e⟩ := a
    rw [recordAll, ih, find_insert]
    by_cases hk : k = toInt32 (usub c first)
    · subst hk; cases m.find (toInt32 (usub c first)) <;> simp
    · cases m.find k <;> simp [lookup_cons_ne _ _ _ _ hk, hk]

theorem recordAll_of_present (first : Nat) (recs : List (Nat × ContextMenuItem)) :
    ∀ (m : ContextMenuMap),
      (∀ p ∈ recs, (m.find (toInt32 (usub p.1 first))).isSome = true) →
      recordAll first m recs = m := by
  induction recs with
  | nil => intro m _; rfl
  | cons a rest ih =>
    intro m h
    obtain ⟨c, e⟩ := a
    have hc := h (c, e) (List.mem_cons_self _ _)
    have hm : m.insert (toInt32 (usub c first)) e = m := by
      unfold ContextMenuMap.insert
      unfold ContextMenuMap.find at hc
      cases hl : List.lookup (toInt32 (usub c first)) m with
      | some w => rfl
      | none => simp [hl] at hc
    rw [recordAll, hm]
    exact ih m (fun p hp => h p (List.mem_cons_of_mem _ hp))

theorem recordAll_fresh (first : Nat) (recs : List (Nat × ContextMenuItem)) :
    ∀ (m : ContextMenuMap),
      (recs.map (fun p => toInt32 (usub p.1 first))).Nodup →
      (∀ p ∈ recs, m.find (toInt32 (usub p.1 first)) = none) →
      recordAll first m recs = m ++ recs.map (fun p => (toInt32 (usub p.1 first), p.2)) := by
  induction recs with
  | nil => intro m _ _; simp [recordAll]
  | cons a rest ih =>
    intro m hnd hfresh
    obtain ⟨c, e⟩ := a
    have hc := hfresh (c, e) (List.mem_cons_self _ _)
    have hm : m.insert (toInt32 (usub c first)) e = m ++ [(toInt32 (usub c first), e)] := by
      unfold ContextMenuMap.insert
      unfold ContextMenuMap.find at hc
      rw [hc]
    simp only [List.map_cons, List.nodup_cons] at hnd
    rw [recordAll, hm, ih _ hnd.2]
    · simp
    · intro p hp
      have h1 := hfresh p (List.mem_cons_of_mem _ hp)
      unfold ContextMenuMap.find at h1 ⊢
      rw [List.lookup_append, h1]
      have hne : toInt32 (usub p.1 first) ≠ toInt32 (usub c first) := by
        intro heq
        exact hnd.1 (heq ▸ List.mem_map_of_mem (fun p => toInt32 (usub p.1 first)) hp)
      simp [lookup_cons_ne _ _ _ _ hne]

theorem lookup_of_mem_nodup (l : List (Int × ContextMenuItem)) (k : Int) (v : ContextMenuItem)
    (hnd : (l.map Prod.fst).Nodup) (hmem : (k, v) ∈ l) : List.lookup k l = some v := by
  induction l with
  | nil => cases hmem
  | cons a rest ih =>
    obtain ⟨k1, v1⟩ := a
    simp only [List.map_cons, List.nodup_cons] at hnd
    rcases List.mem_cons.mp hmem with h | h
    · cases h; simp
    · have hne : k ≠ k1 := by
        intro heq
        subst heq
        exact hnd.1 (List.mem_map_of_mem Prod.fst h)
      rw [lookup_cons_ne _ _ _ _ hne]
      exact ih hnd.2 h

theorem mem_of_lookup (l : List (Int × ContextMenuItem)) (k : Int) (v : ContextMenuItem)
    (h : List.lookup k l = some v) : (k, v) ∈ l := by
  obtain ⟨l1, l2, rfl, _⟩ := List.lookup_eq_some_iff.mp h
  simp

/-! ### Host menus -/

theorem entriesList_append (l1 l2 : List HostItem) :
    HostItem.entriesList (l1 ++ l2) = HostItem.entriesList l1 ++ HostItem.entriesList l2 := by
  induction l1 with
  | nil => simp [HostItem.entriesList]
  | cons a l ih => simp [HostItem.entriesList, ih]

theorem hostIds_append (l1 l2 : List HostItem) :
    hostIds (l1 ++ l2) = hostIds l1 ++ hostIds l2 := by
  simp [hostIds, entriesList_append]

theorem insertByPosition_perm (menu : HMENU) (pos : Nat) (it : HostItem) :
    List.Perm (insertByPosition menu pos it) (it :: menu) := by
  unfold insertByPosition
  have h := @List.perm_middle _ it (menu.take pos) (menu.drop pos)
  rwa [List.take_append_drop] at h

theorem pushAll_perm (l : List HostItem) :
    ∀ (menu : HMENU) (index : Nat), List.Perm (pushAll menu index l).1 (l ++ menu) := by
  induction l with
  | nil => intro menu index; exact List.Perm.refl _
  | cons a rest ih =>
    intro menu index
    rw [pushAll]
    refine (ih _ _).trans ?_
    refine (List.Perm.append_left rest (insertByPosition_perm menu index a)).trans ?_
    simp

/-! ### Entry trees -/

mutual
theorem keptCount_le_validCount :
    ∀ (e : ContextMenuItem), keptCount e ≤ validCount e
  | .mk name file args loc [] => by
    by_cases hf : file.isEmpty = true <;> simp [keptCount, validCount, validCountList, hf]
  | .mk name file args loc (x :: xs) => by
    have ih := keptCountList_le_validCountList (x :: xs)
    by_cases hk : keptCountList (x :: xs) = 0
    · simp [keptCount, hk]
    · simp only [keptCount, validCount, hk, List.isEmpty_cons, Bool.and_false,
        Bool.false_eq_true, if_false, Bool.not_false, if_true]
      omega
theorem keptCountList_le_validCountList :
    ∀ (l : List ContextMenuItem), keptCountList l ≤ validCountList l
  | [] => by simp [keptCountList]
  | e :: rest => by
    have h1 := keptCount_le_validCount e
    have h2 := keptCountList_le_validCountList rest
    simp only [keptCountList, validCountList]
    omega
end

mutual
theorem built_ids (icon : Bool) :
    ∀ (e : ContextMenuItem) (c : Nat), hostIds (built icon e c) = List.range' c (keptCount e)
  | .mk name file args loc [], c => by
    by_cases hf : file.isEmpty = true <;>
      simp [built, keptCount, hostIds, HostItem.entriesList, HostItem.entries, hf]
  | .mk name file args loc (x :: xs), c => by
    have ih := builtList_ids icon (x :: xs) (c + 1)
    by_cases hk : keptCountList (x :: xs) = 0
    · simp [built, keptCount, hk, hostIds, HostItem.entriesList]
    · have h1 : keptCount (.mk name file args loc (x :: xs)) = keptCountList (x :: xs) + 1 := by
        simp [keptCount, hk]
      unfold hostIds at ih
      rw [h1, List.range'_succ]
      simp [built, h1, hostIds, HostItem.entriesList, HostItem.entries, ih]
theorem builtList_ids (icon : Bool) :
    ∀ (l : List ContextMenuItem) (c : Nat),
      hostIds (builtList icon l c) = List.range' c (keptCountList l)
  | [], c => by simp [builtList, keptCountList, hostIds, HostItem.entriesList]
  | e :: rest, c => by
    rw [builtList, hostIds_append, built_ids icon e c, builtList_ids icon rest (c + keptCount e),
      keptCountList, List.range'_append_1, Nat.add_comm]
end

mutual
theorem recorded_perm (icon : Bool) :
    ∀ (e : ContextMenuItem) (c : Nat),
      List.Perm ((recorded e c).map (fun p => (p.1, p.2.DisplayName)))
        (HostItem.entriesList (built icon e c))
  | .mk name file args loc [], c => by
    by_cases hf : file.isEmpty = true <;>
      simp [built, recorded, recordedList, keptCount, HostItem.entriesList, HostItem.entries, hf,
        ContextMenuItem.DisplayName]
  | .mk name file args loc (x :: xs), c => by
    have ih := recordedList_perm icon (x :: xs) (c + 1)
    by_cases hk : keptCountList (x :: xs) = 0
    · simp [built, recorded, keptCount, hk, HostItem.entriesList]
    · have h1 : keptCount (.mk name file args loc (x :: xs)) = keptCountList (x :: xs) + 1 := by
        simp [keptCount, hk]
      simp only [built, recorded, h1, Nat.add_one_ne_zero, if_false, List.isEmpty_cons,
        Bool.false_eq_true, List.map_append, List.map_cons, List.map_nil,
        HostItem.entriesList, HostItem.entries, List.append_nil,
        ContextMenuItem.DisplayName]
      exact (List.perm_append_comm).trans (List.Perm.cons _ ih)
theorem recordedList_perm (icon : Bool) :
    ∀ (l : List ContextMenuItem) (c : Nat),
      List.Perm ((recordedList l c).map (fun p => (p.1, p.2.DisplayName)))
        (HostItem.entriesList (builtList icon l c))
  | [], c => by simp [builtList, recordedList, HostItem.entriesList]
  | e :: rest, c => by
    rw [builtList, recordedList, entriesList_append, List.map_append]
    exact List.Perm.append (recorded_perm icon e c)
      (recordedList_perm icon rest (c + keptCount e))
end

theorem recordedList_ids_perm (l : List ContextMenuItem) (c : Nat) :
    List.Perm ((recordedList l c).map Prod.fst) (List.range' c (keptCountList l)) := by
  have h := (recordedList_perm false l c).map Prod.fst
  rw [List.map_map] at h
  have h2 := builtList_ids false l c
  unfold hostIds at h2
  rw [h2] at h
  exact h

/-! ### `QueryContextMenu` without wrap-around -/

theorem Query_declined (presets : Nat → String → List ContextMenuItem) (self : ContextMenu)
    (menu : HMENU) (index first last flags : Nat)
    (h : (flags &&& CMF_DEFAULTONLY) ≠ 0 ∨ self.settings_.Preset = 0) :
    ContextMenu.QueryContextMenu presets self menu index first last flags
      = ⟨NO_ERROR, self, menu⟩ := by
  unfold ContextMenu.QueryContextMenu
  by_cases h1 : (flags &&& CMF_DEFAULTONLY) ≠ 0
  · simp [h1]
  · have h2 : self.settings_.Preset = 0 := h.resolve_left h1
    simp [h2]

theorem Query_added (presets : Nat → String → List ContextMenuItem) (self : ContextMenu)
    (menu : HMENU) (index first last flags : Nat)
    (hf : (flags &&& CMF_DEFAULTONLY) = 0) (hp : self.settings_.Preset ≠ 0)
    (h : first + keptCountList (ContextMenu.selected presets self) < 4294967296) :
    ∃ added : List HostItem,
      List.Perm (ContextMenu.QueryContextMenu presets self menu index first last flags).menu
        (added ++ menu) ∧
      added = (if 0 < keptCountList (ContextMenu.selected presets self)
          then [HostItem.separator] else [])
        ++ builtList self.icon_ (ContextMenu.selected presets self) first
        ++ (if self.drop_.isEmpty then [HostItem.separator] else []) := by
  have hu := usub_add_left first _ h
  simp only [ContextMenu.QueryContextMenu, hf, ne_eq, not_true_eq_false, if_false, hp,
    ContextMenu.InsertList, ContextMenu.UpdateStyle,
    InsertFrom_eq self.icon_ first first (ContextMenu.selected presets self) _ _ first _ h, hu]
  refine ⟨_, ?_, rfl⟩
  have hmenu1 : List.Perm
      (if self.drop_.isEmpty = true then insertByPosition menu index HostItem.separator
        else menu)
      ((if self.drop_.isEmpty then [HostItem.separator] else []) ++ menu) := by
    split
    · exact insertByPosition_perm _ _ _
    · exact List.Perm.refl _
  have hdest := (pushAll_perm (builtList self.icon_ (ContextMenu.selected presets self) first)
    (if self.drop_.isEmpty = true then insertByPosition menu index HostItem.separator
      else menu)
    (if self.drop_.isEmpty = true then (index + 1) % 4294967296 else index)).trans
    (List.Perm.append_left _ hmenu1)
  split
  · refine (insertByPosition_perm _ _ _).trans ?_
    simp only [List.singleton_append, List.cons_append, List.append_assoc]
    exact List.Perm.cons _ hdest
  · simp only [List.nil_append, List.append_assoc]
    exact hdest

theorem Query_eq (presets : Nat → String → List ContextMenuItem) (self : ContextMenu)
    (menu : HMENU) (index first last flags : Nat)
    (hf : (flags &&& CMF_DEFAULTONLY) = 0) (hp : self.settings_.Preset ≠ 0)
    (h : first + keptCountList (ContextMenu.selected presets self) < 4294967296) :
    ∃ added : List HostItem,
      List.Perm (ContextMenu.QueryContextMenu presets self menu index first last flags).menu
        (added ++ menu) ∧
      HostItem.entriesList added
        = HostItem.entriesList (builtList self.icon_ (ContextMenu.selected presets self) first) ∧
      (ContextMenu.QueryContextMenu presets self menu index first last flags).hr
        = keptCountList (ContextMenu.selected presets self) ∧
      (ContextMenu.QueryContextMenu presets self menu index first last flags).self
        = { self with items_ :=
              (recordAll first self.items_
                (recordedList (ContextMenu.selected presets self) first)) } := by
  obtain ⟨added, hperm, hform⟩ := Query_added presets self menu index first last flags hf hp h
  refine ⟨added, hperm, ?_, ?_, ?_⟩
  · rw [hform, entriesList_append, entriesList_append]
    have h1 : HostItem.entriesList
        (if 0 < keptCountList (ContextMenu.selected presets self)
          then [HostItem.separator] else []) = [] := by
      split <;> simp [HostItem.entriesList, HostItem.entries]
    have h2 : HostItem.entriesList
        (if self.drop_.isEmpty then [HostItem.separator] else []) = [] := by
      split <;> simp [HostItem.entriesList, HostItem.entries]
    rw [h1, h2]
    simp
  · have hu := usub_add_left first _ h
    have hK : keptCountList (ContextMenu.selected presets self) < 4294967296 := by omega
    simp only [ContextMenu.QueryContextMenu, hf, ne_eq, not_true_eq_false, if_false, hp,
      ContextMenu.InsertList,
      InsertFrom_eq self.icon_ first first (ContextMenu.selected presets self) _ _ first _ h,
      hu, MAKE_SCODE_success _ hK]
  · simp only [ContextMenu.QueryContextMenu, hf, ne_eq, not_true_eq_false, if_false, hp,
      ContextMenu.InsertList,
      InsertFrom_eq self.icon_ first first (ContextMenu.selected presets self) _ _ first _ h]

/-! ### The index built from an empty index -/

theorem usub_of_mem_range (first K x : Nat) (h : first + K < 4294967296)
    (hx : x ∈ List.range' first K) : usub x first = x - first ∧ x - first < K := by
  rw [List.mem_range'_1] at hx
  have h1 := usub_add_left first (x - first) (by omega)
  have h2 : first + (x - first) = x := by omega
  rw [h2] at h1
  exact ⟨h1, by omega⟩

theorem recordedList_keys_nodup (tree : List ContextMenuItem) (first : Nat)
    (h : first + keptCountList tree < 4294967296) :
    (((recordedList tree first).map (fun p => (toInt32 (usub p.1 first), p.2))).map
      Prod.fst).Nodup := by
  have hperm := recordedList_ids_perm tree first
  have hnd : ((recordedList tree first).map Prod.fst).Nodup :=
    hperm.nodup_iff.mpr (List.nodup_range' first _)
  have hmap : ((recordedList tree first).map (fun p => (toInt32 (usub p.1 first), p.2))).map
      Prod.fst
      = ((recordedList tree first).map Prod.fst).map (fun c => toInt32 (usub c first)) := by
    simp [List.map_map, Function.comp_def]
  rw [hmap]
  refine List.Nodup.map_on ?_ hnd
  intro x hx y hy hxy
  have hx1 := usub_of_mem_range first _ x h (hperm.mem_iff.mp hx)
  have hy1 := usub_of_mem_range first _ y h (hperm.mem_iff.mp hy)
  have hx2 := List.mem_range'_1.mp (hperm.mem_iff.mp hx)
  have hy2 := List.mem_range'_1.mp (hperm.mem_iff.mp hy)
  rw [hx1.1, hy1.1] at hxy
  have := toInt32_inj _ _ (by omega) (by omega) hxy
  omega

theorem find_fromEmpty (tree : List ContextMenuItem) (first : Nat) (k : Int) :
    (recordAll first [] (recordedList tree first)).find k
      = List.lookup k ((recordedList tree first).map
          (fun p => (toInt32 (usub p.1 first), p.2))) := by
  rw [find_recordAll]
  simp [ContextMenuMap.find]

theorem fromEmpty_resolves (icon : Bool) (tree : List ContextMenuItem) (first : Nat)
    (h : first + keptCountList tree < 4294967296) :
    ∀ p ∈ HostItem.entriesList (builtList icon tree first),
      ∃ e, (recordAll first [] (recordedList tree first)).find (toInt32 (usub p.1 first))
          = some e ∧ e.DisplayName = p.2 := by
  intro p hp
  have hmem := (recordedList_perm icon tree first).mem_iff.mpr hp
  obtain ⟨q, hq, hqp⟩ := List.mem_map.mp hmem
  refine ⟨q.2, ?_, by rw [← hqp]⟩
  rw [find_fromEmpty, ← hqp]
  exact lookup_of_mem_nodup _ _ _ (recordedList_keys_nodup tree first h)
    (List.mem_map.mpr ⟨q, hq, rfl⟩)

theorem fromEmpty_keys (icon : Bool) (tree : List ContextMenuItem) (first : Nat) :
    ∀ (k : Int) (e : ContextMenuItem),
      (recordAll first [] (recordedList tree first)).find k = some e →
      ∃ p ∈ HostItem.entriesList (builtList icon tree first),
        k = toInt32 (usub p.1 first) ∧ e.DisplayName = p.2 := by
  intro k e hk
  rw [find_fromEmpty] at hk
  obtain ⟨q, hq, hqk⟩ := List.mem_map.mp (mem_of_lookup _ _ _ hk)
  refine ⟨(q.1, q.2.DisplayName), ?_, ?_, ?_⟩
  · exact (recordedList_perm icon tree first).mem_iff.mp (List.mem_map.mpr ⟨q, hq, rfl⟩)
  · exact (congrArg Prod.fst hqk).symm
  · have := congrArg Prod.snd hqk
    simp only at this
    rw [← this]

theorem GetCommandString_found (toMultiByte : String → String) (self : ContextMenu)
    (index : Nat) (e : ContextMenuItem) (buffer : String) (size : Nat) (hs : 0 < size)
    (h : self.items_.find (toInt32 index) = some e) :
    ContextMenu.GetCommandString toMultiByte self index GCS_VERBW buffer size
        = some (S_OK, String.mk (e.DisplayName.toList.take (size - 1))) ∧
    ContextMenu.GetCommandString toMultiByte self index GCS_VERBA buffer size
        = some (S_OK, String.mk ((toMultiByte e.DisplayName).toList.take (size - 1))) := by
  have hs0 : size ≠ 0 := by omega
  simp [ContextMenu.GetCommandString, h, copyTruncate, hs0, GCS_VERBA, GCS_VERBW]

/-! ### Further facts on the walk -/

theorem pushAll_end_menu (l : List HostItem) :
    ∀ (menu : HMENU), menu.length + l.length ≤ 4294967296 →
      (pushAll menu menu.length l).1 = menu ++ l := by
  induction l with
  | nil => intro menu _; simp [pushAll]
  | cons a rest ih =>
    intro menu h
    have h2 : insertByPosition menu menu.length a = menu ++ [a] := by
      simp [insertByPosition]
    cases rest with
    | nil => simp [pushAll, h2]
    | cons b rest2 =>
      have h1 : (menu.length + 1) % 4294967296 = (menu ++ [a]).length := by
        simp only [List.length_append, List.length_cons, List.length_nil] at h ⊢
        omega
      rw [pushAll, h1, h2, ih]
      · simp
      · simp only [List.length_append, List.length_cons, List.length_nil] at h ⊢
        omega

theorem entriesList_insert_separator (menu : HMENU) (pos : Nat) :
    HostItem.entriesList (insertByPosition menu pos HostItem.separator)
      = HostItem.entriesList menu := by
  unfold insertByPosition
  rw [entriesList_append]
  simp only [HostItem.entriesList, HostItem.entries, List.nil_append]
  rw [← entriesList_append, List.take_append_drop]

theorem entries_after_push (m : HMENU) (l : List HostItem) (p : Prop) [Decidable p]
    (h : m.length + l.length ≤ 4294967296) :
    HostItem.entriesList
        (if p then insertByPosition (pushAll m m.length l).1 (pushAll m m.length l).2
          HostItem.separator
        else (pushAll m m.length l).1)
      = HostItem.entriesList m ++ HostItem.entriesList l := by
  have hp := pushAll_end_menu l m h
  split
  · rw [entriesList_insert_separator, hp, entriesList_append]
  · rw [hp, entriesList_append]

theorem Query_entries_empty (presets : Nat → String → List ContextMenuItem)
    (self : ContextMenu) (first last flags : Nat)
    (hf : (flags &&& CMF_DEFAULTONLY) = 0) (hp : self.settings_.Preset ≠ 0)
    (h : first + keptCountList (ContextMenu.selected presets self) < 4294967296) :
    HostItem.entriesList (ContextMenu.QueryContextMenu presets self [] 0 first last flags).menu
      = HostItem.entriesList (builtList self.icon_ (ContextMenu.selected presets self) first) := by
  have hlen := builtList_length_le self.icon_ (ContextMenu.selected presets self) first
  simp only [ContextMenu.QueryContextMenu, hf, ne_eq, not_true_eq_false, if_false, hp,
    ContextMenu.InsertList, ContextMenu.UpdateStyle,
    InsertFrom_eq self.icon_ first first (ContextMenu.selected presets self) _ _ first _ h]
  by_cases hd : self.drop_.isEmpty = true
  · have h1 : insertByPosition ([] : HMENU) 0 HostItem.separator = [HostItem.separator] := rfl
    have h2 : (0 + 1) % 4294967296 = 1 := rfl
    have key := entries_after_push [HostItem.separator]
      (builtList self.icon_ (ContextMenu.selected presets self) first)
      (usub (first + keptCountList (ContextMenu.selected presets self)) first > 0)
      (by simp only [List.length_singleton]; omega)
    simp only [List.length_singleton] at key
    simp only [hd, if_true, h1, h2]
    rw [key]
    simp [HostItem.entriesList, HostItem.entries]
  · have key := entries_after_push []
      (builtList self.icon_ (ContextMenu.selected presets self) first)
      (usub (first + keptCountList (ContextMenu.selected presets self)) first > 0)
      (by simp only [List.length_nil]; omega)
    simp only [List.length_nil] at key
    simp only [hd, if_false, Bool.false_eq_true]
    rw [key]
    simp [HostItem.entriesList]

theorem parentBelowList_append (l1 l2 : List HostItem) :
    HostItem.parentBelowList (l1 ++ l2)
      = (HostItem.parentBelowList l1 && HostItem.parentBelowList l2) := by
  induction l1 with
  | nil => simp [HostItem.parentBelowList]
  | cons a l ih => simp [HostItem.parentBelowList, ih, Bool.and_assoc]

mutual
theorem built_parentBelow (icon : Bool) :
    ∀ (e : ContextMenuItem) (c : Nat), HostItem.parentBelowList (built icon e c) = true
  | .mk name file args loc [], c => by
    by_cases hf : file.isEmpty = true <;>
      simp [built, keptCount, HostItem.parentBelowList, HostItem.parentBelow, hf]
  | .mk name file args loc (x :: xs), c => by
    have ih := builtList_parentBelow icon (x :: xs) (c + 1)
    have hids := builtList_ids icon (x :: xs) (c + 1)
    by_cases hk : keptCountList (x :: xs) = 0
    · simp [built, keptCount, hk, HostItem.parentBelowList]
    · have h1 : keptCount (.mk name file args loc (x :: xs)) = keptCountList (x :: xs) + 1 := by
        simp [keptCount, hk]
      simp only [built, h1, Nat.add_one_ne_zero, if_false, List.isEmpty_cons,
        Bool.false_eq_true, HostItem.parentBelowList, HostItem.parentBelow, ih,
        Bool.and_true, List.all_eq_true, decide_eq_true_eq]
      intro p hp
      have hmem : p.1 ∈ hostIds (builtList icon (x :: xs) (c + 1)) :=
        List.mem_map_of_mem Prod.fst hp
      rw [hids, List.mem_range'_1] at hmem
      omega
theorem builtList_parentBelow (icon : Bool) :
    ∀ (l : List ContextMenuItem) (c : Nat), HostItem.parentBelowList (builtList icon l c) = true
  | [], c => by simp [builtList, HostItem.parentBelowList]
  | e :: rest, c => by
    rw [builtList, parentBelowList_append, built_parentBelow icon e c,
      builtList_parentBelow icon rest (c + keptCount e)]
    rfl
end

/-! ### Invalid entries -/

theorem Insert_invalid (icon : Bool) (first : Nat) (e : ContextMenuItem) (dest : HMENU)
    (index cmdid : Nat) (items : ContextMenuMap)
    (hfile : e.FileName.isEmpty = true) (hch : e.Children.isEmpty = true) :
    ContextMenu.Insert icon first e dest index cmdid items
      = ⟨false, dest, index, cmdid, items⟩ := by
  cases e with
  | mk name file args loc children =>
    simp only [ContextMenuItem.FileName, ContextMenuItem.Children] at hfile hch
    simp [ContextMenu.Insert, hfile, hch]

theorem InsertFrom_filter (icon : Bool) (first cur : Nat) (l : List ContextMenuItem) :
    ∀ (dest : HMENU) (index cmdid : Nat) (items : ContextMenuMap),
      ContextMenu.InsertFrom icon first cur l dest index cmdid items
        = ContextMenu.InsertFrom icon first cur
            (l.filter (fun e => !(e.FileName.isEmpty && e.Children.isEmpty)))
            dest index cmdid items := by
  induction l with
  | nil => intro dest index cmdid items; rfl
  | cons e rest ih =>
    intro dest index cmdid items
    by_cases hv : (e.FileName.isEmpty && e.Children.isEmpty) = true
    · have hv2 := hv
      simp only [Bool.and_eq_true] at hv2
      rw [List.filter_cons_of_neg (by simp [hv]), ContextMenu.InsertFrom]
      simp only [Insert_invalid icon first e dest index cmdid items hv2.1 hv2.2]
      exact ih dest index cmdid items
    · rw [Bool.not_eq_true] at hv
      rw [List.filter_cons_of_pos (by rw [hv]; rfl), ContextMenu.InsertFrom,
        ContextMenu.InsertFrom]
      exact ih _ _ _ _

theorem InsertFrom_remove (icon : Bool) (first cur : Nat) (e : ContextMenuItem)
    (post : List ContextMenuItem)
    (hfile : e.FileName.isEmpty = true) (hch : e.Children.isEmpty = true)
    (pre : List ContextMenuItem) :
    ∀ (dest : HMENU) (index cmdid : Nat) (items : ContextMenuMap),
      ContextMenu.InsertFrom icon first cur (pre ++ e :: post) dest index cmdid items
        = ContextMenu.InsertFrom icon first cur (pre ++ post) dest index cmdid items := by
  induction pre with
  | nil =>
    intro dest index cmdid items
    simp only [List.nil_append]
    rw [ContextMenu.InsertFrom]
    simp only [Insert_invalid icon first e dest index cmdid items hfile hch]
  | cons a rest ih =>
    intro dest index cmdid items
    simp only [List.cons_append]
    rw [ContextMenu.InsertFrom, ContextMenu.InsertFrom]
    exact ih _ _ _ _

theorem keptCountList_invalid (l : List ContextMenuItem)
    (hall : ∀ c ∈ l, c.FileName.isEmpty = true ∧ c.Children.isEmpty = true) :
    keptCountList l = 0 := by
  induction l with
  | nil => rfl
  | cons c rest ih =>
    have hc := hall c (List.mem_cons_self _ _)
    have hrest := ih (fun d hd => hall d (List.mem_cons_of_mem _ hd))
    cases c with
    | mk name file args loc children =>
      simp only [ContextMenuItem.FileName, ContextMenuItem.Children] at hc
      simp [keptCountList, keptCount, hc.1, hc.2, hrest]

/-! ### Words of a verb -/

theorem HIWORD_of_lt (l : Nat) (h : l < 65536) : HIWORD l = 0 := by
  unfold HIWORD
  rw [Nat.shiftRight_eq_div_pow]
  have : l / 2 ^ 16 = 0 := Nat.div_eq_of_lt (by norm_num; exact h)
  rw [this]
  simp

/-! ### The index across calls -/

mutual
theorem Insert_persist (icon : Bool) (first : Nat) :
    ∀ (e : ContextMenuItem) (dest : HMENU) (index c : Nat) (items : ContextMenuMap)
      (k : Int) (v : ContextMenuItem), items.find k = some v →
      (ContextMenu.Insert icon first e dest index c items).items.find k = some v
  | .mk name file args loc [], dest, index, c, items, k, v, h => by
    by_cases hf : file.isEmpty = true
    · simpa [ContextMenu.Insert, hf] using h
    · simp only [ContextMenu.Insert, hf, Bool.false_and, Bool.false_eq_true, if_false,
        List.isEmpty_nil, Bool.not_true]
      rw [find_insert, h]
      rfl
  | .mk name file args loc (x :: xs), dest, index, c, items, k, v, h => by
    have ih := InsertFrom_persist icon first ((c + 1) % 4294967296) (x :: xs) [] 0
      ((c + 1) % 4294967296) items k v h
    simp only [ContextMenu.Insert, List.isEmpty_cons, Bool.and_false, Bool.false_eq_true,
      if_false, Bool.not_false, if_true]
    split
    · exact ih
    · rw [find_insert, ih]
      rfl
theorem InsertFrom_persist (icon : Bool) (first : Nat) (cur : Nat) :
    ∀ (l : List ContextMenuItem) (dest : HMENU) (index c : Nat) (items : ContextMenuMap)
      (k : Int) (v : ContextMenuItem), items.find k = some v →
      (ContextMenu.InsertFrom icon first cur l dest index c items).items.find k = some v
  | [], dest, index, c, items, k, v, h => by simpa [ContextMenu.InsertFrom] using h
  | e :: rest, dest, index, c, items, k, v, h => by
    rw [ContextMenu.InsertFrom]
    exact InsertFrom_persist icon first cur rest _ _ _ _ k v
      (Insert_persist icon first e dest index c items k v h)
end

mutual
theorem recorded_shift (d : Nat) :
    ∀ (e : ContextMenuItem) (c : Nat),
      recorded e (c + d) = (recorded e c).map (fun p => (p.1 + d, p.2))
  | .mk name file args loc children, c => by
    have ih := recordedList_shift d children (c + 1)
    have hc : c + d + 1 = c + 1 + d := by omega
    unfold recorded
    split
    · rfl
    · rw [hc, ih]
      simp
theorem recordedList_shift (d : Nat) :
    ∀ (l : List ContextMenuItem) (c : Nat),
      recordedList l (c + d) = (recordedList l c).map (fun p => (p.1 + d, p.2))
  | [], c => by simp [recordedList]
  | e :: rest, c => by
    have h1 := recorded_shift d e c
    have h2 := recordedList_shift d rest (c + keptCount e)
    have hc : c + d + keptCount e = c + keptCount e + d := by omega
    rw [recordedList, recordedList, h1, hc, h2, List.map_append]
end

theorem keyed_shift (tree : List ContextMenuItem) (first : Nat)
    (h : first + keptCountList tree < 4294967296) :
    (recordedList tree first).map (fun p => (toInt32 (usub p.1 first), p.2))
      = (recordedList tree 0).map (fun p => (toInt32 p.1, p.2)) := by
  have hs := recordedList_shift first tree 0
  rw [Nat.zero_add] at hs
  rw [hs, List.map_map]
  apply List.map_congr_left
  intro p hp
  have hmem : p.1 ∈ List.range' 0 (keptCountList tree) :=
    (recordedList_ids_perm tree 0).mem_iff.mp (List.mem_map_of_mem Prod.fst hp)
  rw [List.mem_range'_1] at hmem
  have hu := usub_add_left first p.1 (by omega)
  rw [Nat.add_comm] at hu
  simp only [Function.comp_apply, hu]

theorem fromEmpty_eq_keyed (tree : List ContextMenuItem) (first : Nat)
    (h : first + keptCountList tree < 4294967296) :
    recordAll first [] (recordedList tree first)
      = (recordedList tree 0).map (fun p => (toInt32 p.1, p.2)) := by
  have hnd := recordedList_keys_nodup tree first h
  rw [List.map_map] at hnd
  rw [recordAll_fresh first (recordedList tree first) [] hnd (by intro p _; rfl),
    List.nil_append, keyed_shift tree first h]

theorem recordAll_again (tree : List ContextMenuItem) (first1 first2 : Nat)
    (h1 : first1 + keptCountList tree < 4294967296)
    (h2 : first2 + keptCountList tree < 4294967296) :
    recordAll first2 (recordAll first1 [] (recordedList tree first1)) (recordedList tree first2)
      = recordAll first2 [] (recordedList tree first2) := by
  have hsame : recordAll first1 [] (recordedList tree first1)
      = recordAll first2 [] (recordedList tree first2) := by
    rw [fromEmpty_eq_keyed tree first1 h1, fromEmpty_eq_keyed tree first2 h2]
  rw [hsame]
  apply recordAll_of_present
  intro p hp
  rw [find_fromEmpty]
  have hnd := recordedList_keys_nodup tree first2 h2
  rw [lookup_of_mem_nodup _ (toInt32 (usub p.1 first2)) p.2 hnd
    (List.mem_map.mpr ⟨p, hp, rfl⟩)]
  rfl

/-! ### The command line -/

theorem foldl_quoted (files : List String) :
    ∀ (s : String),
      files.foldl (fun ss file => ss ++ " \"" ++ file ++ "\"") s = s ++ quotedPaths files := by
  induction files with
  | nil => intro s; simp [quotedPaths]
  | cons f rest ih =>
    intro s
    rw [List.foldl_cons, ih, quotedPaths]
    simp only [String.append_assoc]

theorem commandLine_eq_spec (self : ContextMenu) (e : ContextMenuItem) :
    ContextMenu.commandLine self e
      = specCommandLine self.program e.Arguments self.drop_ self.files_ := by
  unfold ContextMenu.commandLine specCommandLine
  simp only [foldl_quoted]
  by_cases ha : e.Arguments.isEmpty = true <;> by_cases hd : self.drop_.isEmpty = true <;>
    simp only [ha, hd, Bool.not_true, Bool.not_false, Bool.false_eq_true, if_true, if_false,
      String.append_assoc, String.append_empty, String.empty_append]

/-! ### Lifetime -/

theorem Release_none_iff (self : ContextMenu) (dll : Nat) :
    (ContextMenu.Release self dll).self = none ↔ (ContextMenu.Release self dll).ret = 0 := by
  unfold ContextMenu.Release
  by_cases h : udec self.objCount_ = 0 <;> simp [h]

theorem refCalls_events (calls : List RefCall) :
    ∀ (self : ContextMenu) (dll : Nat),
      (∀ ev ∈ ContextMenu.refCalls self dll calls,
        (ev.destroyed = true ↔ (ev.call = RefCall.release ∧ ev.ret = 0))) ∧
      (∀ ev ∈ (ContextMenu.refCalls self dll calls).dropLast, ev.destroyed = false) := by
  induction calls with
  | nil => intro self dll; simp [ContextMenu.refCalls]
  | cons c rest ih =>
    intro self dll
    cases c with
    | addRef =>
      obtain ⟨ih1, ih2⟩ := ih (ContextMenu.AddRef self).1 dll
      rw [ContextMenu.refCalls]
      constructor
      · intro ev hev
        rcases List.mem_cons.mp hev with h | h
        · subst h; simp
        · exact ih1 ev h
      · intro ev hev
        cases htail : ContextMenu.refCalls (ContextMenu.AddRef self).1 dll rest with
        | nil => rw [htail] at hev; simp at hev
        | cons b l =>
          rw [htail, List.dropLast_cons₂] at hev
          rcases List.mem_cons.mp hev with h | h
          · subst h; rfl
          · exact ih2 ev (htail ▸ h)
    | release =>
      have hiff := Release_none_iff self dll
      rw [ContextMenu.refCalls]
      cases hrel : (ContextMenu.Release self dll).self with
      | none =>
        have hret := hiff.mp hrel
        simp [hret]
      | some s =>
        have hret : (ContextMenu.Release self dll).ret ≠ 0 := by
          intro h0
          rw [hiff.mpr h0] at hrel
          cases hrel
        obtain ⟨ih1, ih2⟩ := ih s (ContextMenu.Release self dll).dllCount
        simp only
        constructor
        · intro ev hev
          rcases List.mem_cons.mp hev with h | h
          · subst h; simp [hret]
          · exact ih1 ev h
        · intro ev hev
          cases htail : ContextMenu.refCalls s (ContextMenu.Release self dll).dllCount rest with
          | nil => rw [htail] at hev; simp at hev
          | cons b l =>
            rw [htail, List.dropLast_cons₂] at hev
            rcases List.mem_cons.mp hev with h | h
            · subst h; rfl
            · exact ih2 ev (htail ▸ h)

theorem afterCalls_eq (calls : List HostCall) :
    ∀ (self : ContextMenu), ContextMenu.afterCalls self calls = self := by
  induction calls with
  | nil => intro self; rfl
  | cons c rest ih =>
    intro self
    rw [ContextMenu.afterCalls, ih]
    cases c <;> rfl

/-! ### Positions -/

theorem insert_after_block (menu : HMENU) (index : Nat) (blk : List HostItem) (it : HostItem) :
    insertByPosition (menu.take index ++ blk ++ menu.drop index) (index + blk.length) it
      = menu.take index ++ (blk ++ [it]) ++ menu.drop index := by
  unfold insertByPosition
  by_cases h : index ≤ menu.length
  · have hlen : (menu.take index ++ blk).length = index + blk.length := by
      simp [List.length_take, Nat.min_eq_left h]
    rw [← hlen, List.take_left', List.drop_left']
    · simp
    · rfl
    · rfl
  · have h1 : menu.take index = menu := List.take_of_length_le (by omega)
    have h2 : menu.drop index = [] := List.drop_of_length_le (by omega)
    rw [h1, h2, List.append_nil, List.take_of_length_le (by simp; omega),
      List.drop_of_length_le (by simp; omega)]
    simp

theorem pushAll_block (l : List HostItem) :
    ∀ (menu : HMENU) (index : Nat) (blk : List HostItem),
      index + blk.length + l.length < 4294967296 →
      pushAll (menu.take index ++ blk ++ menu.drop index) (index + blk.length) l
        = (menu.take index ++ (blk ++ l) ++ menu.drop index, index + blk.length + l.length) := by
  induction l with
  | nil => intro menu index blk _; simp [pushAll]
  | cons a rest ih =>
    intro menu index blk h
    simp only [List.length_cons] at h
    have hmod : (index + blk.length + 1) % 4294967296 = index + (blk ++ [a]).length := by
      rw [Nat.mod_eq_of_lt (by omega)]
      simp [Nat.add_assoc]
    rw [pushAll, insert_after_block, hmod, ih menu index (blk ++ [a]) (by simp; omega)]
    simp [Nat.add_assoc, Nat.add_comm 1]

theorem pushAll_splice (l : List HostItem) (menu : HMENU) (index : Nat)
    (h : index + l.length < 4294967296) :
    pushAll menu index l = (menu.take index ++ l ++ menu.drop index, index + l.length) := by
  have hb := pushAll_block l menu index [] (by simpa using h)
  simpa using hb

mutual
theorem built_length_le_one (icon : Bool) :
    ∀ (e : ContextMenuItem) (c : Nat), (built icon e c).length ≤ 1
  | .mk name file args loc children, c => by
    unfold built
    split <;> simp
theorem builtList_length_le_length (icon : Bool) :
    ∀ (l : List ContextMenuItem) (c : Nat), (builtList icon l c).length ≤ l.length
  | [], _ => by simp [builtList]
  | e :: rest, c => by
    have h1 := built_length_le_one icon e c
    have h2 := builtList_length_le_length icon rest (c + keptCount e)
    simp only [builtList, List.length_append, List.length_cons]
    omega
end

theorem InsertList_fresh (icon : Bool) (first : Nat) (tree : List ContextMenuItem)
    (c : Nat) (items : ContextMenuMap) (h : c + keptCountList tree < 4294967296) :
    (ContextMenu.InsertList icon first tree [] 0 c items).dest = builtList icon tree c := by
  have hlen := builtList_length_le icon tree c
  rw [ContextMenu.InsertList, InsertFrom_eq icon first c tree [] 0 c items h]
  exact pushAll_end_menu (builtList icon tree c) [] (by simp only [List.length_nil]; omega)

mutual
theorem built_no_separator (icon : Bool) :
    ∀ (e : ContextMenuItem) (c : Nat), ∀ it ∈ built icon e c, it ≠ HostItem.separator
  | .mk name file args loc children, c => by
    intro it hit
    unfold built at hit
    split at hit
    · cases hit
    · simp only [List.mem_singleton] at hit
      rw [hit]
      exact fun h => HostItem.noConfusion h
theorem builtList_no_separator (icon : Bool) :
    ∀ (l : List ContextMenuItem) (c : Nat), ∀ it ∈ builtList icon l c, it ≠ HostItem.separator
  | [], _ => by intro it hit; simp [builtList] at hit
  | e :: rest, c => by
    intro it hit
    rw [builtList, List.mem_append] at hit
    rcases hit with h | h
    · exact built_no_separator icon e c it h
    · exact builtList_no_separator icon rest (c + keptCount e) it h
end

theorem separators_around (menu : HMENU) (index : Nat) (blk : List HostItem)
    (p q : Prop) [Decidable p] [Decidable q] (h : index + blk.length + 1 < 4294967296) :
    (if q then
        insertByPosition
          (pushAll (if p then insertByPosition menu index HostItem.separator else menu)
            (if p then (index + 1) % 4294967296 else index) blk).1
          (pushAll (if p then insertByPosition menu index HostItem.separator else menu)
            (if p then (index + 1) % 4294967296 else index) blk).2
          HostItem.separator
      else
        (pushAll (if p then insertByPosition menu index HostItem.separator else menu)
          (if p then (index + 1) % 4294967296 else index) blk).1)
      = menu.take index
          ++ ((if p then [HostItem.separator] else []) ++ blk
              ++ (if q then [HostItem.separator] else []))
          ++ menu.drop index := by
  have hlead : insertByPosition menu index HostItem.separator
      = menu.take index ++ [HostItem.separator] ++ menu.drop index := by
    simp [insertByPosition]
  have hmod : (index + 1) % 4294967296 = index + [HostItem.separator].length := by
    rw [Nat.mod_eq_of_lt (by omega)]
    rfl
  by_cases hp : p
  · have hpush := pushAll_block blk menu index [HostItem.separator]
      (by simp only [List.length_singleton]; omega)
    simp only [hp, if_true, hlead, hmod, hpush]
    by_cases hq : q
    · simp only [hq, if_true]
      have hpos : index + [HostItem.separator].length + blk.length
          = index + ([HostItem.separator] ++ blk).length := by
        simp only [List.length_append, List.length_singleton]
        omega
      rw [hpos, insert_after_block]
    · simp only [hq, if_false, List.append_nil]
  · have hpush := pushAll_splice blk menu index (by omega)
    simp only [hp, if_false, hpush]
    by_cases hq : q
    · simp only [hq, if_true]
      rw [insert_after_block]
      simp
    · simp only [hq, if_false]
      simp

theorem Query_menu_exact (presets : Nat → String → List ContextMenuItem) (self : ContextMenu)
    (menu : HMENU) (index first last flags : Nat)
    (hf : (flags &&& CMF_DEFAULTONLY) = 0) (hp : self.settings_.Preset ≠ 0)
    (hid : first + keptCountList (ContextMenu.selected presets self) < 4294967296)
    (hpos : index + (ContextMenu.selected presets self).length + 1 < 4294967296) :
    (ContextMenu.QueryContextMenu presets self menu index first last flags).menu
      = menu.take index
          ++ ((if self.drop_.isEmpty = true then [HostItem.separator] else [])
              ++ builtList self.icon_ (ContextMenu.selected presets self) first
              ++ (if 0 < keptCountList (ContextMenu.selected presets self)
                  then [HostItem.separator] else []))
          ++ menu.drop index := by
  have hu := usub_add_left first _ hid
  have hlen := builtList_length_le_length self.icon_ (ContextMenu.selected presets self) first
  simp only [ContextMenu.QueryContextMenu, hf, ne_eq, not_true_eq_false, if_false, hp,
    ContextMenu.InsertList, ContextMenu.UpdateStyle,
    InsertFrom_eq self.icon_ first first (ContextMenu.selected presets self) _ _ first _ hid, hu]
  exact separators_around menu index
    (builtList self.icon_ (ContextMenu.selected presets self) first)
    (self.drop_.isEmpty = true) (keptCountList (ContextMenu.selected presets self) > 0)
    (by omega)

/-! ### Mirror of a tree -/

theorem mirrorsList_length (l : List ContextMenuItem) :
    ∀ (hs : List HostItem), mirrorsList l hs = true → hs.length = l.length := by
  induction l with
  | nil =>
    intro hs h
    cases hs with
    | nil => rfl
    | cons a rest => simp [mirrorsList] at h
  | cons e es ih =>
    intro hs h
    cases hs with
    | nil => simp [mirrorsList] at h
    | cons a rest =>
      simp only [mirrorsList, Bool.and_eq_true] at h
      simp [ih rest h.2]

mutual
theorem built_mirrors (icon : Bool) :
    ∀ (e : ContextMenuItem) (c : Nat), leavesNamed e = true →
      0 < keptCount e ∧ ∃ h, built icon e c = [h] ∧ mirrors e h = true
  | .mk name file args loc [], c, hl => by
    have hf : file.isEmpty = false := by simpa [leavesNamed] using hl
    refine ⟨by simp [keptCount, hf],
      HostItem.item c name (if !loc.isEmpty && icon then some loc else none) none, ?_, ?_⟩
    · simp [built, keptCount, hf]
    · simp [mirrors]
  | .mk name file args loc (x :: xs), c, hl => by
    have hl2 : leavesNamedList (x :: xs) = true := by simpa [leavesNamed] using hl
    obtain ⟨hm, hk⟩ := builtList_mirrors icon (x :: xs) (c + 1) hl2
    have hpos := hk (by simp)
    have hne : keptCountList (x :: xs) ≠ 0 := by omega
    have h1 : keptCount (.mk name file args loc (x :: xs)) = keptCountList (x :: xs) + 1 := by
      simp [keptCount, hne]
    refine ⟨by omega,
      HostItem.item c name (if !loc.isEmpty && icon then some loc else none)
        (some (builtList icon (x :: xs) (c + 1))), ?_, ?_⟩
    · simp [built, h1]
    · simp [mirrors, hm]
theorem builtList_mirrors (icon : Bool) :
    ∀ (l : List ContextMenuItem) (c : Nat), leavesNamedList l = true →
      mirrorsList l (builtList icon l c) = true ∧ (l ≠ [] → 0 < keptCountList l)
  | [], c, _ => by simp [builtList, mirrorsList]
  | e :: rest, c, hl => by
    simp only [leavesNamedList, Bool.and_eq_true] at hl
    obtain ⟨hk, h, hb, hm⟩ := built_mirrors icon e c hl.1
    obtain ⟨hmr, _⟩ := builtList_mirrors icon rest (c + keptCount e) hl.2
    constructor
    · rw [builtList, hb]
      simp [mirrorsList, hm, hmr]
    · intro _
      simp only [keptCountList]
      omega
end

/-! ### Insertable entries -/

mutual
theorem insertable_kept :
    ∀ (e : ContextMenuItem),
      insertable e = decide (0 < keptCount e) ∧ insertableCount e = keptCount e
  | .mk name file args loc [] => by
    by_cases hf : file.isEmpty = true <;>
      simp [insertable, insertableCount, insertableCountList, keptCount, hf]
  | .mk name file args loc (x :: xs) => by
    obtain ⟨ha, hc⟩ := insertableAny_kept (x :: xs)
    have hi : insertable (.mk name file args loc (x :: xs))
        = decide (0 < keptCountList (x :: xs)) := by
      simp only [insertable, List.isEmpty_cons, Bool.false_eq_true, if_false, ha]
    by_cases hk : keptCountList (x :: xs) = 0
    · simp [insertableCount, hi, hc, keptCount, hk]
    · have hpos : 0 < keptCountList (x :: xs) := Nat.pos_of_ne_zero hk
      simp [insertableCount, hi, hc, keptCount, hk, hpos, Nat.add_comm]
theorem insertableAny_kept :
    ∀ (l : List ContextMenuItem),
      insertableAny l = decide (0 < keptCountList l) ∧ insertableCountList l = keptCountList l
  | [] => by simp [insertableAny, insertableCountList, keptCountList]
  | e :: rest => by
    obtain ⟨h1, h2⟩ := insertable_kept e
    obtain ⟨h3, h4⟩ := insertableAny_kept rest
    constructor
    · simp only [insertableAny, keptCountList, h1, h3]
      by_cases ha : 0 < keptCount e <;> by_cases hb : 0 < keptCountList rest <;>
        simp [ha, hb]
    · simp only [insertableCountList, keptCountList, h2, h4]
end

theorem keptCount_of_kept (e : ContextMenuItem) (h : keptCount e ≠ 0) :
    keptCount e = keptCountList e.Children + 1 := by
  cases e with
  | mk name file args loc children =>
    cases children with
    | nil =>
      by_cases hf : file.isEmpty = true
      · simp [keptCount, hf] at h
      · simp [keptCount, hf, ContextMenuItem.Children, keptCountList]
    | cons x xs =>
      by_cases hk : keptCountList (x :: xs) = 0
      · simp [keptCount, hk] at h
      · simp [keptCount, hk, ContextMenuItem.Children]

theorem built_of_kept (icon : Bool) (e : ContextMenuItem) (c : Nat) (h : keptCount e ≠ 0) :
    built icon e c
      = [HostItem.item c e.DisplayName
          (if !e.IconLocation.isEmpty && icon then some e.IconLocation else none)
          (if e.Children.isEmpty then none
            else some (builtList icon e.Children (c + 1)))] := by
  cases e with
  | mk name file args loc children =>
    simp only [built, h, if_false, ContextMenuItem.DisplayName, ContextMenuItem.IconLocation,
      ContextMenuItem.Children]

theorem recorded_of_kept (e : ContextMenuItem) (c : Nat) (h : keptCount e ≠ 0) :
    recorded e c = recordedList e.Children (c + 1) ++ [(c, e)] := by
  cases e with
  | mk name file args loc children =>
    simp only [recorded, h, if_false, ContextMenuItem.Children]

theorem usub_of_le (first x : Nat) (h1 : first ≤ x) (h2 : x < 4294967296) :
    usub x first = x - first := by
  have h := usub_add_left first (x - first) (by omega)
  have hx : first + (x - first) = x := by omega
  rw [hx] at h
  exact h

theorem recorded_parent_found (first : Nat) (e : ContextMenuItem) (c : Nat)
    (items : ContextMenuMap) (hk : keptCount e ≠ 0) (hfirst : first ≤ c)
    (hnw : c + keptCount e < 4294967296)
    (hfree : items.find (toInt32 (usub c first)) = none) :
    (recordAll first items (recorded e c)).find (toInt32 (usub c first)) = some e := by
  have hkc := keptCount_of_kept e hk
  rw [find_recordAll, hfree, recorded_of_kept e c hk, List.map_append, List.lookup_append]
  have hnone : List.lookup (toInt32 (usub c first))
      ((recordedList e.Children (c + 1)).map (fun p => (toInt32 (usub p.1 first), p.2)))
      = none := by
    rw [List.lookup_eq_none_iff]
    intro p hp
    obtain ⟨q, hq, hqp⟩ := List.mem_map.mp hp
    have hmem : q.1 ∈ List.range' (c + 1) (keptCountList e.Children) :=
      (recordedList_ids_perm e.Children (c + 1)).mem_iff.mp (List.mem_map_of_mem Prod.fst hq)
    rw [List.mem_range'_1] at hmem
    rw [← hqp]
    simp only [bne_iff_ne, ne_eq]
    intro heq
    rw [usub_of_le first c hfirst (by omega), usub_of_le first q.1 (by omega) (by omega)] at heq
    have := toInt32_inj _ _ (by omega) (by omega) heq
    omega
  rw [hnone]
  simp

/-! ## Claims -/

/-- C1: when the window `[first, last)` has at least as many slots as the tree has valid
entries, the items `QueryContextMenu` adds to the host menu carry only identifiers in
`[first, last)`, each strictly below `first` plus the returned count, and no two of them
(submenus included) carry the same identifier. It holds for any index the instance starts
with, the empty one included. -/
theorem C1_identifiers_in_window (presets : Nat → String → List ContextMenuItem)
    (self : ContextMenu) (menu : HMENU) (index first last flags : Nat)
    (hwin : first ≤ last) (hlast : last < 4294967296)
    (hsize : validCountList (ContextMenu.selected presets self) ≤ last - first) :
    ∃ added : List HostItem,
      List.Perm (ContextMenu.QueryContextMenu presets self menu index first last flags).menu
        (added ++ menu) ∧
      (∀ i ∈ hostIds added, first ≤ i ∧ i < last ∧
        i < first + (ContextMenu.QueryContextMenu presets self menu index first last flags).hr) ∧
      (hostIds added).Nodup := by
  have hkv := keptCountList_le_validCountList (ContextMenu.selected presets self)
  by_cases hd : (flags &&& CMF_DEFAULTONLY) ≠ 0 ∨ self.settings_.Preset = 0
  · rw [Query_declined presets self menu index first last flags hd]
    exact ⟨[], List.Perm.refl _, by simp [hostIds, HostItem.entriesList],
      by simp [hostIds, HostItem.entriesList]⟩
  · simp only [not_or, not_not] at hd
    obtain ⟨added, hperm, hent, hhr, _⟩ :=
      Query_eq presets self menu index first last flags hd.1 hd.2 (by omega)
    have hids : hostIds added
        = List.range' first (keptCountList (ContextMenu.selected presets self)) := by
      have h := builtList_ids self.icon_ (ContextMenu.selected presets self) first
      unfold hostIds at h ⊢
      rw [hent, h]
    refine ⟨added, hperm, ?_, ?_⟩
    · intro i hi
      rw [hids, List.mem_range'_1] at hi
      rw [hhr]
      omega
    · rw [hids]
      exact List.nodup_range' first _

/-- Witness of C1: the sample tree in the window `[100, 200)` on a host menu that already
holds one item. -/
theorem C1_identifiers_in_window_witness :
    (100 ≤ 200 ∧ 200 < 4294967296 ∧
      validCountList (ContextMenu.selected noPresets (sampleSelf sampleTree)) ≤ 200 - 100) ∧
    ∃ added : List HostItem,
      List.Perm
        (ContextMenu.QueryContextMenu noPresets (sampleSelf sampleTree)
          [HostItem.item 1 "Open" none none] 1 100 200 0).menu
        (added ++ [HostItem.item 1 "Open" none none]) ∧
      (∀ i ∈ hostIds added, 100 ≤ i ∧ i < 200 ∧
        i < 100 + (ContextMenu.QueryContextMenu noPresets (sampleSelf sampleTree)
          [HostItem.item 1 "Open" none none] 1 100 200 0).hr) ∧
      (hostIds added).Nodup :=
  ⟨by decide,
   C1_identifiers_in_window noPresets (sampleSelf sampleTree)
     [HostItem.item 1 "Open" none none] 1 100 200 0 (by decide) (by decide) (by decide)⟩

/-- C2 (as amended): when the window `[first, last)` has at least as many slots as the tree
has valid entries, then after `QueryContextMenu` on an instance with an empty index every
added item with identifier `i` and text `t` (submenus included) has its offset `i - first`
mapped by the index to an entry whose display name is `t`, every key of the index is the
offset of such an item, and `GetCommandString` at that offset copies `t` (truncated to
`size - 1` characters) for the wide verb flavor and the transcoded `t` for the single-byte
one. -/
theorem C2_index_matches_items (presets : Nat → String → List ContextMenuItem)
    (toMultiByte : String → String)
    (self : ContextMenu) (menu : HMENU) (index first last flags : Nat)
    (hempty : self.items_ = [])
    (hwin : first ≤ last) (hlast : last < 4294967296)
    (hsize : validCountList (ContextMenu.selected presets self) ≤ last - first) :
    ∃ added : List HostItem,
      List.Perm (ContextMenu.QueryContextMenu presets self menu index first last flags).menu
        (added ++ menu) ∧
      (∀ p ∈ HostItem.entriesList added, ∃ e,
        (ContextMenu.QueryContextMenu presets self menu index first last flags).self.items_.find
            (toInt32 (usub p.1 first)) = some e ∧
        e.DisplayName = p.2) ∧
      (∀ (k : Int) (e : ContextMenuItem),
        (ContextMenu.QueryContextMenu presets self menu index first last flags).self.items_.find k
            = some e →
        ∃ p ∈ HostItem.entriesList added, k = toInt32 (usub p.1 first)) ∧
      (∀ p ∈ HostItem.entriesList added, ∀ (buffer : String) (size : Nat), 0 < size →
        ContextMenu.GetCommandString toMultiByte
            (ContextMenu.QueryContextMenu presets self menu index first last flags).self
            (usub p.1 first) GCS_VERBW buffer size
          = some (S_OK, String.mk (p.2.toList.take (size - 1))) ∧
        ContextMenu.GetCommandString toMultiByte
            (ContextMenu.QueryContextMenu presets self menu index first last flags).self
            (usub p.1 first) GCS_VERBA buffer size
          = some (S_OK, String.mk ((toMultiByte p.2).toList.take (size - 1)))) := by
  have hkv := keptCountList_le_validCountList (ContextMenu.selected presets self)
  by_cases hd : (flags &&& CMF_DEFAULTONLY) ≠ 0 ∨ self.settings_.Preset = 0
  · rw [Query_declined presets self menu index first last flags hd]
    refine ⟨[], List.Perm.refl _, ?_, ?_, ?_⟩
    · simp [HostItem.entriesList]
    · intro k e hk
      simp [hempty, ContextMenuMap.find] at hk
    · simp [HostItem.entriesList]
  · simp only [not_or, not_not] at hd
    have hnw : first + keptCountList (ContextMenu.selected presets self) < 4294967296 := by
      omega
    obtain ⟨added, hperm, hent, _, hself⟩ :=
      Query_eq presets self menu index first last flags hd.1 hd.2 hnw
    have hres := fromEmpty_resolves self.icon_ (ContextMenu.selected presets self) first hnw
    refine ⟨added, hperm, ?_, ?_, ?_⟩
    · intro p hp
      rw [hself, hempty]
      exact hres p (hent ▸ hp)
    · intro k e hk
      rw [hself, hempty] at hk
      obtain ⟨p, hp, hk1, _⟩ :=
        fromEmpty_keys self.icon_ (ContextMenu.selected presets self) first k e hk
      exact ⟨p, hent ▸ hp, hk1⟩
    · intro p hp buffer size hs
      obtain ⟨e, he, hname⟩ := hres p (hent ▸ hp)
      rw [← hname]
      refine GetCommandString_found toMultiByte _ (usub p.1 first) e buffer size hs ?_
      rw [hself, hempty]
      exact he

/-- Witness of C2: the sample tree in the window `[100, 200)`. -/
theorem C2_index_matches_items_witness :
    ((sampleSelf sampleTree).items_ = [] ∧ 100 ≤ 200 ∧ 200 < 4294967296 ∧
      validCountList (ContextMenu.selected noPresets (sampleSelf sampleTree)) ≤ 200 - 100) ∧
    ∃ added : List HostItem,
      List.Perm
        (ContextMenu.QueryContextMenu noPresets (sampleSelf sampleTree) [] 0 100 200 0).menu
        (added ++ []) ∧
      (∀ p ∈ HostItem.entriesList added, ∃ e,
        (ContextMenu.QueryContextMenu noPresets (sampleSelf sampleTree) [] 0 100 200
            0).self.items_.find (toInt32 (usub p.1 100)) = some e ∧
        e.DisplayName = p.2) ∧
      (∀ (k : Int) (e : ContextMenuItem),
        (ContextMenu.QueryContextMenu noPresets (sampleSelf sampleTree) [] 0 100 200
            0).self.items_.find k = some e →
        ∃ p ∈ HostItem.entriesList added, k = toInt32 (usub p.1 100)) ∧
      (∀ p ∈ HostItem.entriesList added, ∀ (buffer : String) (size : Nat), 0 < size →
        ContextMenu.GetCommandString id
            (ContextMenu.QueryContextMenu noPresets (sampleSelf sampleTree) [] 0 100 200 0).self
            (usub p.1 100) GCS_VERBW buffer size
          = some (S_OK, String.mk (p.2.toList.take (size - 1))) ∧
        ContextMenu.GetCommandString id
            (ContextMenu.QueryContextMenu noPresets (sampleSelf sampleTree) [] 0 100 200 0).self
            (usub p.1 100) GCS_VERBA buffer size
          = some (S_OK, String.mk ((id p.2).toList.take (size - 1)))) :=
  ⟨⟨rfl, by decide, by decide, by decide⟩,
   C2_index_matches_items noPresets id (sampleSelf sampleTree) [] 0 100 200 0 rfl
     (by decide) (by decide) (by decide)⟩

/-- Counterexample to C2 as stated (no condition on the window): with `first = 4294967294`
the cursor wraps. The entry `P` is dropped after its child `C` was recorded under offset 1,
so the item `E`, inserted with identifier `4294967295` (offset 1), finds offset 1 taken:
the index maps the offset of the item showing `E` to the entry `C`, and `GetCommandString`
returns `C` for it. -/
theorem C2_counterexample :
    (ContextMenu.QueryContextMenu noPresets (sampleSelf wrapTree) [] 0 4294967294 4294967295
        0).menu
      = [HostItem.separator, HostItem.item 4294967294 "D" none none,
         HostItem.item 4294967295 "E" none none, HostItem.separator] ∧
    usub 4294967295 4294967294 = 1 ∧
    (ContextMenu.QueryContextMenu noPresets (sampleSelf wrapTree) [] 0 4294967294 4294967295
        0).self.items_.find (toInt32 (usub 4294967295 4294967294))
      = some (.mk "C" "c.exe" "" "" []) ∧
    ContextMenu.GetCommandString id
        (ContextMenu.QueryContextMenu noPresets (sampleSelf wrapTree) [] 0 4294967294
          4294967295 0).self
        (usub 4294967295 4294967294) GCS_VERBW "" 260
      = some (S_OK, "C") ∧
    "C" ≠ "E" :=
  ⟨rfl, rfl, rfl, rfl, by decide⟩

/-- Counterexample to C3 as stated: the entry `P` of `hollowTree` is valid (it has a file
name and a child) but its only child is invalid, so `Insert` drops it: the tree has one
valid entry while the count consumed is 0 and the index stays empty. The second half shows
the count also departs from the number of valid entries when the cursor wraps
(`first = 4294967294`, four valid entries, count 2). -/
theorem C3_counterexample :
    (validCountList hollowTree = 1 ∧
      usub (ContextMenu.InsertList false 100 hollowTree [] 0 100 []).cmdid 100 = 0 ∧
      (ContextMenu.QueryContextMenu noPresets (sampleSelf hollowTree) [] 0 100 200 0).hr = 0 ∧
      (ContextMenu.QueryContextMenu noPresets (sampleSelf hollowTree) [] 0 100 200
        0).self.items_.length = 0) ∧
    (validCountList wrapTree = 4 ∧
      usub (ContextMenu.InsertList false 4294967294 wrapTree [] 0 4294967294 []).cmdid
        4294967294 = 2) :=
  ⟨⟨by decide, by decide, by decide, by decide⟩, by decide, by decide⟩

/-- C3 (as amended): when `first` plus the number of kept entries stays below `2^32`, the
count of identifiers consumed by inserting the tree (the final `cmdid` minus `first`, which
a `QueryContextMenu` that is not declined returns) equals the number of kept entries, where
an entry is kept when it is childless with a non-empty file name or has at least one kept
child; the index built from an empty index has exactly that many entries; and that number
is at most the number of valid entries. -/
theorem C3_count_is_kept (icon : Bool) (first : Nat) (tree : List ContextMenuItem)
    (dest : HMENU) (index : Nat)
    (hnowrap : first + keptCountList tree < 4294967296) :
    usub (ContextMenu.InsertList icon first tree dest index first []).cmdid first
      = keptCountList tree ∧
    (ContextMenu.InsertList icon first tree dest index first []).items.length
      = keptCountList tree ∧
    keptCountList tree ≤ validCountList tree ∧
    (∀ (presets : Nat → String → List ContextMenuItem) (self : ContextMenu) (menu : HMENU)
        (last flags : Nat),
      (flags &&& CMF_DEFAULTONLY) = 0 → self.settings_.Preset ≠ 0 →
      ContextMenu.selected presets self = tree →
      (ContextMenu.QueryContextMenu presets self menu index first last flags).hr
        = keptCountList tree) := by
  have heq := InsertFrom_eq icon first first tree dest index first [] hnowrap
  refine ⟨?_, ?_, keptCountList_le_validCountList tree, ?_⟩
  · rw [ContextMenu.InsertList, heq]
    exact usub_add_left first _ hnowrap
  · rw [ContextMenu.InsertList, heq]
    have hnd := recordedList_keys_nodup tree first hnowrap
    rw [List.map_map] at hnd
    have hlen := recordAll_fresh first (recordedList tree first) [] hnd (by intro p _; rfl)
    have hperm := (recordedList_ids_perm tree first).length_eq
    simp only [List.length_map, List.length_range'] at hperm
    show (recordAll first [] (recordedList tree first)).length = keptCountList tree
    rw [hlen]
    simpa using hperm
  · intro presets self menu last flags hf hp hsel
    obtain ⟨_, _, _, hhr, _⟩ :=
      Query_eq presets self menu index first last flags hf hp (hsel ▸ hnowrap)
    rw [hhr, hsel]

/-- Witness of C3: the sample tree from identifier 100. -/
theorem C3_count_is_kept_witness :
    100 + keptCountList sampleTree < 4294967296 ∧
    usub (ContextMenu.InsertList false 100 sampleTree [] 0 100 []).cmdid 100
      = keptCountList sampleTree ∧
    (ContextMenu.InsertList false 100 sampleTree [] 0 100 []).items.length
      = keptCountList sampleTree ∧
    keptCountList sampleTree ≤ validCountList sampleTree ∧
    (∀ (presets : Nat → String → List ContextMenuItem) (self : ContextMenu) (menu : HMENU)
        (last flags : Nat),
      (flags &&& CMF_DEFAULTONLY) = 0 → self.settings_.Preset ≠ 0 →
      ContextMenu.selected presets self = sampleTree →
      (ContextMenu.QueryContextMenu presets self menu 0 100 last flags).hr
        = keptCountList sampleTree) :=
  ⟨by decide, C3_count_is_kept false 100 sampleTree [] 0 (by decide)⟩

/-- Counterexample to C4 as stated (every tree, no condition on `first`): with
`first = 4294967295` the cursor wraps after the first entry, so the second entry inserted
(k = 1) receives identifier 0, which is neither `first + 1` nor above the identifier of the
first entry. -/
theorem C4_counterexample :
    hostIds (ContextMenu.QueryContextMenu noPresets (sampleSelf pairTree) [] 0 4294967295
        4294967295 0).menu
      = [4294967295, 0] ∧
    (0 : Nat) ≠ 4294967295 + 1 ∧ ¬ (4294967295 < (0 : Nat)) :=
  ⟨by decide, by decide, by decide⟩

/-- C4 (as amended): when the window `[first, last)` has at least as many slots as the tree
has valid entries, identifiers are dense and strictly increasing in pre-order: on a host
menu that starts empty, the identifiers of the items of the menu and its submenus, read in
pre-order, are `first, first + 1, ...` up to `first` plus the returned count, without gaps;
on any host menu the added items are these up to the place they take in the menu. -/
theorem C4_dense_preorder (presets : Nat → String → List ContextMenuItem)
    (self : ContextMenu) (first last flags : Nat)
    (hwin : first ≤ last) (hlast : last < 4294967296)
    (hsize : validCountList (ContextMenu.selected presets self) ≤ last - first) :
    hostIds (ContextMenu.QueryContextMenu presets self [] 0 first last flags).menu
      = List.range' first (ContextMenu.QueryContextMenu presets self [] 0 first last flags).hr ∧
    (∀ (menu : HMENU) (index : Nat), ∃ added : List HostItem,
      List.Perm (ContextMenu.QueryContextMenu presets self menu index first last flags).menu
        (added ++ menu) ∧
      hostIds added = List.range' first
        (ContextMenu.QueryContextMenu presets self menu index first last flags).hr) := by
  have hkv := keptCountList_le_validCountList (ContextMenu.selected presets self)
  have hids := builtList_ids self.icon_ (ContextMenu.selected presets self) first
  by_cases hd : (flags &&& CMF_DEFAULTONLY) ≠ 0 ∨ self.settings_.Preset = 0
  · constructor
    · rw [Query_declined presets self [] 0 first last flags hd]
      simp [hostIds, HostItem.entriesList, NO_ERROR]
    · intro menu index
      rw [Query_declined presets self menu index first last flags hd]
      exact ⟨[], List.Perm.refl _, by simp [hostIds, HostItem.entriesList, NO_ERROR]⟩
  · simp only [not_or, not_not] at hd
    have hnw : first + keptCountList (ContextMenu.selected presets self) < 4294967296 := by
      omega
    constructor
    · obtain ⟨_, _, _, hhr, _⟩ := Query_eq presets self [] 0 first last flags hd.1 hd.2 hnw
      rw [hhr, ← hids]
      unfold hostIds
      rw [Query_entries_empty presets self first last flags hd.1 hd.2 hnw]
    · intro menu index
      obtain ⟨added, hperm, hent, hhr, _⟩ :=
        Query_eq presets self menu index first last flags hd.1 hd.2 hnw
      refine ⟨added, hperm, ?_⟩
      rw [hhr, ← hids]
      unfold hostIds
      rw [hent]

/-- Witness of C4, the example of the claim: a leaf followed by an entry with three leaf
children, window `[100, 200)`. Five identifiers are consumed; the leaf gets 100, the parent
101 and its children 102, 103 and 104. -/
theorem C4_dense_preorder_witness :
    (100 ≤ 200 ∧ 200 < 4294967296 ∧
      validCountList (ContextMenu.selected noPresets (sampleSelf sampleTree)) ≤ 200 - 100) ∧
    (hostIds (ContextMenu.QueryContextMenu noPresets (sampleSelf sampleTree) [] 0 100 200 0).menu
      = List.range' 100
          (ContextMenu.QueryContextMenu noPresets (sampleSelf sampleTree) [] 0 100 200 0).hr ∧
    (∀ (menu : HMENU) (index : Nat), ∃ added : List HostItem,
      List.Perm
        (ContextMenu.QueryContextMenu noPresets (sampleSelf sampleTree) menu index 100 200
          0).menu
        (added ++ menu) ∧
      hostIds added = List.range' 100
        (ContextMenu.QueryContextMenu noPresets (sampleSelf sampleTree) menu index 100 200
          0).hr)) ∧
    (ContextMenu.QueryContextMenu noPresets (sampleSelf sampleTree) [] 0 100 200 0).hr = 5 ∧
    HostItem.entriesList
        (ContextMenu.QueryContextMenu noPresets (sampleSelf sampleTree) [] 0 100 200 0).menu
      = [(100, "Leaf"), (101, "Parent"), (102, "Child1"), (103, "Child2"), (104, "Child3")] :=
  ⟨⟨by decide, by decide, by decide⟩,
   C4_dense_preorder noPresets (sampleSelf sampleTree) 100 200 0 (by decide) (by decide)
     (by decide),
   by decide, by decide⟩

/-- C5: when the identifier cursor does not wrap (`first` plus the number of valid entries
stays below `2^32`), every item that `QueryContextMenu` adds together with a submenu
carries an identifier strictly below the identifier of every item in that submenu and in
the submenus below it: a parent is numbered before all of its descendants. -/
theorem C5_parent_below_descendants (presets : Nat → String → List ContextMenuItem)
    (self : ContextMenu) (menu : HMENU) (index first last flags : Nat)
    (hnowrap : first + validCountList (ContextMenu.selected presets self) < 4294967296) :
    ∃ added : List HostItem,
      List.Perm (ContextMenu.QueryContextMenu presets self menu index first last flags).menu
        (added ++ menu) ∧
      HostItem.parentBelowList added = true := by
  have hkv := keptCountList_le_validCountList (ContextMenu.selected presets self)
  by_cases hd : (flags &&& CMF_DEFAULTONLY) ≠ 0 ∨ self.settings_.Preset = 0
  · rw [Query_declined presets self menu index first last flags hd]
    exact ⟨[], List.Perm.refl _, rfl⟩
  · simp only [not_or, not_not] at hd
    have hnw : first + keptCountList (ContextMenu.selected presets self) < 4294967296 := by
      omega
    obtain ⟨added, hperm, hform⟩ :=
      Query_added presets self menu index first last flags hd.1 hd.2 hnw
    refine ⟨added, hperm, ?_⟩
    rw [hform, parentBelowList_append, parentBelowList_append,
      builtList_parentBelow self.icon_ (ContextMenu.selected presets self) first]
    have h1 : HostItem.parentBelowList
        (if 0 < keptCountList (ContextMenu.selected presets self)
          then [HostItem.separator] else []) = true := by
      split <;> rfl
    have h2 : HostItem.parentBelowList
        (if self.drop_.isEmpty then [HostItem.separator] else []) = true := by
      split <;> rfl
    rw [h1, h2]
    rfl

/-- Witness of C5: the sample tree from identifier 100; the parent 101 lies below its
children 102, 103 and 104. -/
theorem C5_parent_below_descendants_witness :
    100 + validCountList (ContextMenu.selected noPresets (sampleSelf sampleTree)) < 4294967296 ∧
    ∃ added : List HostItem,
      List.Perm
        (ContextMenu.QueryContextMenu noPresets (sampleSelf sampleTree) [] 0 100 200 0).menu
        (added ++ []) ∧
      HostItem.parentBelowList added = true :=
  ⟨by decide,
   C5_parent_below_descendants noPresets (sampleSelf sampleTree) [] 0 100 200 0 (by decide)⟩

/-- C6: for an entry whose file name and children are both empty, the single-entry
`Insert` returns false and leaves the identifier cursor, the insertion position, the host
container and the index unchanged; so a sibling list that holds the entry gives the same
result (return value, host items, position, cursor and index) as the list without it, and
any sibling list gives the same result as the list with all such entries removed. -/
theorem C6_invalid_entry_is_skipped (icon : Bool) (first : Nat) (e : ContextMenuItem)
    (dest : HMENU) (index cmdid : Nat) (items : ContextMenuMap)
    (hfile : e.FileName.isEmpty = true) (hch : e.Children.isEmpty = true) :
    ContextMenu.Insert icon first e dest index cmdid items
      = ⟨false, dest, index, cmdid, items⟩ ∧
    (∀ (pre post : List ContextMenuItem) (dest1 : HMENU) (index1 cmdid1 : Nat)
        (items1 : ContextMenuMap),
      ContextMenu.InsertList icon first (pre ++ e :: post) dest1 index1 cmdid1 items1
        = ContextMenu.InsertList icon first (pre ++ post) dest1 index1 cmdid1 items1) ∧
    (∀ (l : List ContextMenuItem) (dest1 : HMENU) (index1 cmdid1 : Nat)
        (items1 : ContextMenuMap),
      ContextMenu.InsertList icon first l dest1 index1 cmdid1 items1
        = ContextMenu.InsertList icon first
            (l.filter (fun x => !(x.FileName.isEmpty && x.Children.isEmpty)))
            dest1 index1 cmdid1 items1) :=
  ⟨Insert_invalid icon first e dest index cmdid items hfile hch,
   fun pre post dest1 index1 cmdid1 items1 =>
     InsertFrom_remove icon first cmdid1 e post hfile hch pre dest1 index1 cmdid1 items1,
   fun l dest1 index1 cmdid1 items1 =>
     InsertFrom_filter icon first cmdid1 l dest1 index1 cmdid1 items1⟩

/-- Witness of C6: an entry with a display name only, at cursor 100 and position 3. -/
theorem C6_invalid_entry_is_skipped_witness :
    ((ContextMenuItem.mk "X" "" "" "" []).FileName.isEmpty = true ∧
      (ContextMenuItem.mk "X" "" "" "" []).Children.isEmpty = true) ∧
    (ContextMenu.Insert false 100 (.mk "X" "" "" "" []) [HostItem.separator] 3 100 []
      = ⟨false, [HostItem.separator], 3, 100, []⟩ ∧
    (∀ (pre post : List ContextMenuItem) (dest1 : HMENU) (index1 cmdid1 : Nat)
        (items1 : ContextMenuMap),
      ContextMenu.InsertList false 100 (pre ++ .mk "X" "" "" "" [] :: post) dest1 index1 cmdid1
          items1
        = ContextMenu.InsertList false 100 (pre ++ post) dest1 index1 cmdid1 items1) ∧
    (∀ (l : List ContextMenuItem) (dest1 : HMENU) (index1 cmdid1 : Nat)
        (items1 : ContextMenuMap),
      ContextMenu.InsertList false 100 l dest1 index1 cmdid1 items1
        = ContextMenu.InsertList false 100
            (l.filter (fun x => !(x.FileName.isEmpty && x.Children.isEmpty)))
            dest1 index1 cmdid1 items1)) :=
  ⟨⟨by decide, by decide⟩,
   C6_invalid_entry_is_skipped false 100 (.mk "X" "" "" "" []) [HostItem.separator] 3 100 []
     (by decide) (by decide)⟩

/-- Counterexample to C7 as stated. First half: after a first query that records the
offsets 0 and 1, a second query with `CMF_DEFAULTONLY` set returns at once; from an empty
index it would build the empty index, but the index still holds both offsets and
`GetCommandString` still resolves offset 0. Second half, with two queries that both insert:
the first query (from 100) records the offsets 0 to 3, the second (from 4294967294, where
the cursor wraps) would record only the offsets 1 and 0 (for `C` and `D`) from an empty
index; after it the offsets 2 and 3 of the first query still resolve, `InvokeCommand`
accepts offset 2, and offset 0, recorded by both, still maps to `P`, the entry of the
first query. -/
theorem C7_counterexample :
    ((ContextMenu.QueryContextMenu noPresets (sampleSelf pairTree) [] 0 100 200 1).self.items_
        = [] ∧
      (ContextMenu.QueryContextMenu noPresets
          (ContextMenu.QueryContextMenu noPresets (sampleSelf pairTree) [] 0 100 200 0).self
          [] 0 100 200 1).self.items_
        = [(0, .mk "A" "a.exe" "" "" []), (1, .mk "B" "b.exe" "" "" [])] ∧
      ContextMenu.GetCommandString id
          (ContextMenu.QueryContextMenu noPresets
            (ContextMenu.QueryContextMenu noPresets (sampleSelf pairTree) [] 0 100 200 0).self
            [] 0 100 200 1).self
          0 GCS_VERBW "" 260
        = some (S_OK, "A")) ∧
    ((ContextMenu.QueryContextMenu noPresets (sampleSelf wrapTree) [] 0 4294967294 4294967295
          0).self.items_
        = [(1, .mk "C" "c.exe" "" "" []), (0, .mk "D" "d.exe" "" "" [])] ∧
      (ContextMenu.QueryContextMenu noPresets
          (ContextMenu.QueryContextMenu noPresets (sampleSelf wrapTree) [] 0 100 200 0).self
          [] 0 4294967294 4294967295 0).self.items_
        = [(1, .mk "C" "c.exe" "" "" []),
           (0, .mk "P" "p.exe" "" "" [.mk "C" "c.exe" "" "" []]),
           (2, .mk "D" "d.exe" "" "" []), (3, .mk "E" "e.exe" "" "" [])] ∧
      (ContextMenu.InvokeCommand (fun _ => true)
          (ContextMenu.QueryContextMenu noPresets
            (ContextMenu.QueryContextMenu noPresets (sampleSelf wrapTree) [] 0 100 200 0).self
            [] 0 4294967294 4294967295 0).self 2).hr
        = S_OK) :=
  ⟨⟨rfl, rfl, rfl⟩, rfl, rfl, rfl⟩

/-- C7 (as amended): `QueryContextMenu` never clears or overwrites the index: an offset
that resolves before a call resolves to the same entry after it, so offsets of an earlier
query keep resolving and keep their earlier entry. When the index was empty before the
first of two calls on the same instance, the second call is not declined by its flags and
the cursor wraps in neither call (`first` plus the number of valid entries stays below
`2^32`), the index after the second call equals the index the second call builds from
the empty index. -/
theorem C7_index_is_never_cleared :
    (∀ (presets : Nat → String → List ContextMenuItem) (self : ContextMenu) (menu : HMENU)
        (index first last flags : Nat) (k : Int) (e : ContextMenuItem),
      self.items_.find k = some e →
      (ContextMenu.QueryContextMenu presets self menu index first last flags).self.items_.find k
        = some e) ∧
    (∀ (presets : Nat → String → List ContextMenuItem) (self : ContextMenu)
        (menu1 menu2 : HMENU) (index1 first1 last1 flags1 index2 first2 last2 flags2 : Nat),
      self.items_ = [] →
      (flags2 &&& CMF_DEFAULTONLY) = 0 →
      first1 + validCountList (ContextMenu.selected presets self) < 4294967296 →
      first2 + validCountList (ContextMenu.selected presets self) < 4294967296 →
      (ContextMenu.QueryContextMenu presets
          (ContextMenu.QueryContextMenu presets self menu1 index1 first1 last1 flags1).self
          menu2 index2 first2 last2 flags2).self.items_
        = (ContextMenu.QueryContextMenu presets self menu2 index2 first2 last2
            flags2).self.items_) := by
  constructor
  · intro presets self menu index first last flags k e h
    by_cases hd : (flags &&& CMF_DEFAULTONLY) ≠ 0 ∨ self.settings_.Preset = 0
    · rw [Query_declined presets self menu index first last flags hd]
      exact h
    · simp only [not_or, not_not] at hd
      simp only [ContextMenu.QueryContextMenu, hd.1, ne_eq, not_true_eq_false, if_false, hd.2,
        ContextMenu.InsertList]
      exact InsertFrom_persist self.icon_ first first _ _ _ first self.items_ k e h
  · intro presets self menu1 menu2 index1 first1 last1 flags1 index2 first2 last2 flags2
      hempty hf2 hw1 hw2
    have hkv := keptCountList_le_validCountList (ContextMenu.selected presets self)
    by_cases hd1 : (flags1 &&& CMF_DEFAULTONLY) ≠ 0 ∨ self.settings_.Preset = 0
    · rw [Query_declined presets self menu1 index1 first1 last1 flags1 hd1]
    · simp only [not_or, not_not] at hd1
      obtain ⟨_, _, _, _, hself1⟩ :=
        Query_eq presets self menu1 index1 first1 last1 flags1 hd1.1 hd1.2 (by omega)
      obtain ⟨_, _, _, _, hself2⟩ :=
        Query_eq presets self menu2 index2 first2 last2 flags2 hf2 hd1.2 (by omega)
      have hsel : ContextMenu.selected presets
          (ContextMenu.QueryContextMenu presets self menu1 index1 first1 last1 flags1).self
          = ContextMenu.selected presets self := by
        rw [hself1]
        rfl
      have hp1 : (ContextMenu.QueryContextMenu presets self menu1 index1 first1 last1
          flags1).self.settings_.Preset ≠ 0 := by
        rw [hself1]
        exact hd1.2
      obtain ⟨_, _, _, _, hself12⟩ :=
        Query_eq presets
          (ContextMenu.QueryContextMenu presets self menu1 index1 first1 last1 flags1).self
          menu2 index2 first2 last2 flags2 hf2 hp1 (by rw [hsel]; omega)
      rw [hself12, hself2, hsel, hself1, hempty]
      exact recordAll_again (ContextMenu.selected presets self) first1 first2
        (by omega) (by omega)

/-- Witness of C7: two queries on the sample tree, from 100 and from 300. -/
theorem C7_index_is_never_cleared_witness :
    ((sampleSelf sampleTree).items_ = [] ∧ (0 &&& CMF_DEFAULTONLY) = 0 ∧
      100 + validCountList (ContextMenu.selected noPresets (sampleSelf sampleTree))
        < 4294967296 ∧
      300 + validCountList (ContextMenu.selected noPresets (sampleSelf sampleTree))
        < 4294967296) ∧
    (ContextMenu.QueryContextMenu noPresets
        (ContextMenu.QueryContextMenu noPresets (sampleSelf sampleTree) [] 0 100 200 0).self
        [] 0 300 400 0).self.items_
      = (ContextMenu.QueryContextMenu noPresets (sampleSelf sampleTree) [] 0 300 400
          0).self.items_ :=
  ⟨⟨rfl, by decide, by decide, by decide⟩,
   C7_index_is_never_cleared.2 noPresets (sampleSelf sampleTree) [] [] 0 100 200 0 0 300 400 0
     rfl (by decide) (by decide) (by decide)⟩

/-- C8, the code at the failing input: three leaves in the window `[100, 101)`. The host
receives the identifiers 100, 101 and 102, the index records the offsets 0, 1 and 2 and
the call returns 3, although the window has one slot: `last` is never consulted. -/
theorem C8_window_overflow :
    (ContextMenu.QueryContextMenu noPresets (sampleSelf tripleTree) [] 0 100 101 0).menu
      = [HostItem.separator, HostItem.item 100 "A" none none, HostItem.item 101 "B" none none,
         HostItem.item 102 "C" none none, HostItem.separator] ∧
    (ContextMenu.QueryContextMenu noPresets (sampleSelf tripleTree) [] 0 100 101 0).hr = 3 ∧
    (ContextMenu.QueryContextMenu noPresets (sampleSelf tripleTree) [] 0 100 101
        0).self.items_.map Prod.fst = [0, 1, 2] ∧
    ¬ (102 < 101) ∧ ¬ (3 ≤ 101 - 100) :=
  ⟨rfl, by decide, by decide, by decide, by decide⟩

/-- Counterexample to C9 as stated: the entry `P` has a file name and one child, and the
child is invalid. `Insert` returns false, inserts nothing into the target container,
leaves the cursor at 100 and records nothing. -/
theorem C9_counterexample :
    ContextMenu.Insert false 100 (.mk "P" "p.exe" "" "" [.mk "X" "" "" "" []])
        [HostItem.separator] 1 100 []
      = ⟨false, [HostItem.separator], 1, 100, []⟩ :=
  rfl

/-- C9 (as amended): for an entry that has at least one child and all of whose children
are invalid, `Insert` returns false: the entry is not inserted into the target container,
no identifier is consumed, the insertion position stays and nothing is recorded in the
index (the submenu that was created for it is left unused). -/
theorem C9_hollow_entry_is_dropped (icon : Bool) (first : Nat) (e : ContextMenuItem)
    (dest : HMENU) (index cmdid : Nat) (items : ContextMenuMap)
    (hne : e.Children ≠ [])
    (hall : ∀ c ∈ e.Children, c.FileName.isEmpty = true ∧ c.Children.isEmpty = true) :
    ContextMenu.Insert icon first e dest index cmdid items
      = ⟨false, dest, index, cmdid, items⟩ := by
  apply Insert_skip
  cases e with
  | mk name file args loc children =>
    simp only [ContextMenuItem.Children] at hne hall
    have hk := keptCountList_invalid children hall
    cases children with
    | nil => exact absurd rfl hne
    | cons x xs => simp [keptCount, hk]

/-- Witness of C9: the entry `P` with its invalid child `X`. -/
theorem C9_hollow_entry_is_dropped_witness :
    ((ContextMenuItem.mk "P" "p.exe" "" "" [.mk "X" "" "" "" []]).Children ≠ [] ∧
      ∀ c ∈ (ContextMenuItem.mk "P" "p.exe" "" "" [.mk "X" "" "" "" []]).Children,
        c.FileName.isEmpty = true ∧ c.Children.isEmpty = true) ∧
    ContextMenu.Insert true 100 (.mk "P" "p.exe" "" "" [.mk "X" "" "" "" []])
        [HostItem.separator] 1 100 []
      = ⟨false, [HostItem.separator], 1, 100, []⟩ :=
  ⟨⟨by simp [ContextMenuItem.Children],
    by
      intro c hc
      simp only [ContextMenuItem.Children, List.mem_singleton] at hc
      subst hc
      exact ⟨by decide, by decide⟩⟩,
   C9_hollow_entry_is_dropped true 100 (.mk "P" "p.exe" "" "" [.mk "X" "" "" "" []])
     [HostItem.separator] 1 100 []
     (by simp [ContextMenuItem.Children])
     (by
      intro c hc
      simp only [ContextMenuItem.Children, List.mem_singleton] at hc
      subst hc
      exact ⟨by decide, by decide⟩)⟩

/-- C10: for a verb with no bit set above its low 16 bits, `InvokeCommand` returns
`E_INVALIDARG` without reaching `CreateProcess` exactly when the low word of the verb is
not a key of the index; when it is a key, the call hands the command line to
`CreateProcess` and returns `S_OK` whatever the outcome of the launch. -/
theorem C10_invoke_unknown_identifier (createProcess : String → Bool) (self : ContextMenu)
    (lpVerb : Nat) (hverb : lpVerb < 65536) :
    (((ContextMenu.InvokeCommand createProcess self lpVerb).hr = E_INVALIDARG ∧
        (ContextMenu.InvokeCommand createProcess self lpVerb).command = none ∧
        (ContextMenu.InvokeCommand createProcess self lpVerb).started = false)
      ↔ self.items_.find (Int.ofNat (LOWORD lpVerb)) = none) ∧
    (∀ e, self.items_.find (Int.ofNat (LOWORD lpVerb)) = some e →
      (ContextMenu.InvokeCommand createProcess self lpVerb).hr = S_OK ∧
      (ContextMenu.InvokeCommand createProcess self lpVerb).command
        = some (ContextMenu.commandLine self e) ∧
      (ContextMenu.InvokeCommand createProcess self lpVerb).started
        = createProcess (ContextMenu.commandLine self e)) := by
  have hhi := HIWORD_of_lt lpVerb hverb
  unfold ContextMenu.InvokeCommand
  cases hfind : self.items_.find (Int.ofNat (LOWORD lpVerb)) with
  | none => simp [hhi]
  | some e => simp [hhi, S_OK, E_INVALIDARG]

/-- Witness of C10: after a query on the sample tree (offsets 0 to 4) the verb 7 is
rejected and the verb 1 is accepted, also when the launch fails. -/
theorem C10_invoke_unknown_identifier_witness :
    (7 : Nat) < 65536 ∧
    ((((ContextMenu.InvokeCommand (fun _ => false)
            (ContextMenu.QueryContextMenu noPresets (sampleSelf sampleTree) [] 0 100 200 0).self
            7).hr = E_INVALIDARG ∧
        (ContextMenu.InvokeCommand (fun _ => false)
            (ContextMenu.QueryContextMenu noPresets (sampleSelf sampleTree) [] 0 100 200 0).self
            7).command = none ∧
        (ContextMenu.InvokeCommand (fun _ => false)
            (ContextMenu.QueryContextMenu noPresets (sampleSelf sampleTree) [] 0 100 200 0).self
            7).started = false)
      ↔ (ContextMenu.QueryContextMenu noPresets (sampleSelf sampleTree) [] 0 100 200
            0).self.items_.find (Int.ofNat (LOWORD 7)) = none) ∧
    (∀ e, (ContextMenu.QueryContextMenu noPresets (sampleSelf sampleTree) [] 0 100 200
            0).self.items_.find (Int.ofNat (LOWORD 7)) = some e →
      (ContextMenu.InvokeCommand (fun _ => false)
          (ContextMenu.QueryContextMenu noPresets (sampleSelf sampleTree) [] 0 100 200 0).self
          7).hr = S_OK ∧
      (ContextMenu.InvokeCommand (fun _ => false)
          (ContextMenu.QueryContextMenu noPresets (sampleSelf sampleTree) [] 0 100 200 0).self
          7).command
        = some (ContextMenu.commandLine
            (ContextMenu.QueryContextMenu noPresets (sampleSelf sampleTree) [] 0 100 200 0).self
            e) ∧
      (ContextMenu.InvokeCommand (fun _ => false)
          (ContextMenu.QueryContextMenu noPresets (sampleSelf sampleTree) [] 0 100 200 0).self
          7).started
        = (fun _ => false) (ContextMenu.commandLine
            (ContextMenu.QueryContextMenu noPresets (sampleSelf sampleTree) [] 0 100 200 0).self
            e))) ∧
    (ContextMenu.InvokeCommand (fun _ => false)
        (ContextMenu.QueryContextMenu noPresets (sampleSelf sampleTree) [] 0 100 200 0).self
        7).hr = E_INVALIDARG ∧
    (ContextMenu.InvokeCommand (fun _ => false)
        (ContextMenu.QueryContextMenu noPresets (sampleSelf sampleTree) [] 0 100 200 0).self
        2)
      = ⟨S_OK, some "\"C:\\Tool\\app.exe\" /a", false⟩ :=
  ⟨by decide,
   C10_invoke_unknown_identifier (fun _ => false)
     (ContextMenu.QueryContextMenu noPresets (sampleSelf sampleTree) [] 0 100 200 0).self 7
     (by decide),
   rfl, rfl⟩

/-- C11, the code at the failing input: on a build with 64-bit pointers the verb
`4294967298` (bit 32 and bit 1 set) has a bit above its low 16 bits, but `HIWORD` reads
only bits 16 to 31 and gives 0. After a query on the sample tree (offsets 0 to 4)
`InvokeCommand` looks offset 2 up, hands the command line of `Child1` to `CreateProcess`
and returns `S_OK` instead of `E_INVALIDARG`. -/
theorem C11_high_bits_pass :
    4294967298 >>> 16 ≠ 0 ∧
    HIWORD 4294967298 = 0 ∧ LOWORD 4294967298 = 2 ∧
    ContextMenu.InvokeCommand (fun _ => true)
        (ContextMenu.QueryContextMenu noPresets (sampleSelf sampleTree) [] 0 100 200 0).self
        4294967298
      = ⟨S_OK, some "\"C:\\Tool\\app.exe\" /a", true⟩ ∧
    S_OK ≠ E_INVALIDARG :=
  ⟨by decide, by decide, by decide, rfl, by decide⟩

/-- C12: the command line `InvokeCommand` hands to `CreateProcess` for a resolved entry is
exactly the text the specification describes, for every program path, entry, drop target
and selection; for program `C:\Tool\app.exe`, arguments `-x`, drop target `D:\Out` and
selection `A.txt`, `B.txt` it is `"C:\Tool\app.exe" -x "/drop:D:\Out" "A.txt" "B.txt"`, and
the drop and argument segments are left out when empty. -/
theorem C12_command_line :
    (∀ (createProcess : String → Bool) (self : ContextMenu) (lpVerb : Nat)
        (e : ContextMenuItem),
      HIWORD lpVerb = 0 → self.items_.find (Int.ofNat (LOWORD lpVerb)) = some e →
      (ContextMenu.InvokeCommand createProcess self lpVerb).command
        = some (specCommandLine self.program e.Arguments self.drop_ self.files_)) ∧
    (∀ (self : ContextMenu) (e : ContextMenuItem),
      ContextMenu.commandLine self e
        = specCommandLine self.program e.Arguments self.drop_ self.files_) ∧
    (ContextMenu.InvokeCommand (fun _ => true) droppedSelf 0).command
      = some "\"C:\\Tool\\app.exe\" -x \"/drop:D:\\Out\" \"A.txt\" \"B.txt\"" ∧
    specCommandLine "C:\\Tool\\app.exe" "-x" "D:\\Out" ["A.txt", "B.txt"]
      = "\"C:\\Tool\\app.exe\" -x \"/drop:D:\\Out\" \"A.txt\" \"B.txt\"" ∧
    specCommandLine "C:\\Tool\\app.exe" "-x" "" ["A.txt", "B.txt"]
      = "\"C:\\Tool\\app.exe\" -x \"A.txt\" \"B.txt\"" ∧
    specCommandLine "C:\\Tool\\app.exe" "" "D:\\Out" ["A.txt", "B.txt"]
      = "\"C:\\Tool\\app.exe\" \"/drop:D:\\Out\" \"A.txt\" \"B.txt\"" := by
  refine ⟨?_, commandLine_eq_spec, rfl, by decide, by decide, by decide⟩
  intro createProcess self lpVerb e hhi hfind
  simp only [ContextMenu.InvokeCommand, hhi, ne_eq, not_true_eq_false, if_false, hfind,
    commandLine_eq_spec]

/-- Witness of C12: the verb 0 on the instance with drop target and selection. -/
theorem C12_command_line_witness :
    (HIWORD 0 = 0 ∧
      droppedSelf.items_.find (Int.ofNat (LOWORD 0)) = some (.mk "Extract" "app.exe" "-x" "" [])) ∧
    (ContextMenu.InvokeCommand (fun _ => false) droppedSelf 0).command
      = some (specCommandLine droppedSelf.program
          (ContextMenuItem.mk "Extract" "app.exe" "-x" "" []).Arguments
          droppedSelf.drop_ droppedSelf.files_) :=
  ⟨⟨by decide, rfl⟩,
   C12_command_line.1 (fun _ => false) droppedSelf 0 (.mk "Extract" "app.exe" "-x" "" [])
     (by decide) rfl⟩

/-- C13: for a buffer of size at least 1, `GetCommandString` returns `S_FALSE` with the
buffer unchanged exactly when the requested offset (converted to `int` as the source does;
below `2^31` that is the offset itself) is not a key of the index. When it is a key the
call returns `S_OK` for every flavor; for the wide verb flavor the buffer then holds the
display name of the entry cut to at most `size - 1` characters, and for the validation and
help-text flavors (any flavor other than the two verb flavors) the buffer is unchanged. -/
theorem C13_command_string (toMultiByte : String → String) (self : ContextMenu)
    (index flags : Nat) (buffer : String) (size : Nat) (hsize : 1 ≤ size) :
    (ContextMenu.GetCommandString toMultiByte self index flags buffer size
        = some (S_FALSE, buffer)
      ↔ self.items_.find (toInt32 index) = none) ∧
    (∀ e, self.items_.find (toInt32 index) = some e →
      (∃ b, ContextMenu.GetCommandString toMultiByte self index flags buffer size
        = some (S_OK, b)) ∧
      ContextMenu.GetCommandString toMultiByte self index GCS_VERBW buffer size
        = some (S_OK, String.mk (e.DisplayName.toList.take (size - 1))) ∧
      (e.DisplayName.toList.take (size - 1)).length ≤ size - 1 ∧
      (∀ f ∈ [GCS_VALIDATEA, GCS_VALIDATEW, GCS_HELPTEXTA, GCS_HELPTEXTW],
        ContextMenu.GetCommandString toMultiByte self index f buffer size
          = some (S_OK, buffer)) ∧
      (flags ≠ GCS_VERBA → flags ≠ GCS_VERBW →
        ContextMenu.GetCommandString toMultiByte self index flags buffer size
          = some (S_OK, buffer))) ∧
    (index < 2147483648 → toInt32 index = Int.ofNat index) := by
  have hs0 : size ≠ 0 := by omega
  refine ⟨?_, ?_, ?_⟩
  · cases hfind : self.items_.find (toInt32 index) with
    | none => simp [ContextMenu.GetCommandString, hfind]
    | some e =>
      simp only [ContextMenu.GetCommandString, hfind, copyTruncate, hs0, if_false,
        Option.map_some', reduceCtorEq, iff_false]
      split
      · simp [S_OK, S_FALSE]
      · split <;> simp [S_OK, S_FALSE]
  · intro e hfind
    refine ⟨?_, ?_, ?_, ?_, ?_⟩
    · simp only [ContextMenu.GetCommandString, hfind, copyTruncate, hs0, if_false,
        Option.map_some']
      split
      · exact ⟨_, rfl⟩
      · split <;> exact ⟨_, rfl⟩
    · simp [ContextMenu.GetCommandString, hfind, copyTruncate, hs0, GCS_VERBA, GCS_VERBW]
    · simp only [List.length_take]
      omega
    · intro f hf
      simp only [List.mem_cons, List.mem_singleton, List.not_mem_nil, or_false] at hf
      rcases hf with rfl | rfl | rfl | rfl <;>
        simp [ContextMenu.GetCommandString, hfind, GCS_VERBA, GCS_VERBW, GCS_VALIDATEA,
          GCS_VALIDATEW, GCS_HELPTEXTA, GCS_HELPTEXTW]
    · intro h1 h2
      simp [ContextMenu.GetCommandString, hfind, h1, h2]
  · intro h
    have hm : index % 4294967296 = index := Nat.mod_eq_of_lt (by omega)
    simp [toInt32, hm, h]

/-- Witness of C13: offset 1 after a query on the sample tree, wide verb flavor, with a
buffer of 4 characters: the name `Parent` is cut to `Par`. -/
theorem C13_command_string_witness :
    (1 ≤ 4) ∧
    ((ContextMenu.GetCommandString id
          (ContextMenu.QueryContextMenu noPresets (sampleSelf sampleTree) [] 0 100 200 0).self
          1 GCS_VERBW "old" 4
        = some (S_FALSE, "old")
      ↔ (ContextMenu.QueryContextMenu noPresets (sampleSelf sampleTree) [] 0 100 200
          0).self.items_.find (toInt32 1) = none) ∧
    (∀ e, (ContextMenu.QueryContextMenu noPresets (sampleSelf sampleTree) [] 0 100 200
          0).self.items_.find (toInt32 1) = some e →
      (∃ b, ContextMenu.GetCommandString id
          (ContextMenu.QueryContextMenu noPresets (sampleSelf sampleTree) [] 0 100 200 0).self
          1 GCS_VERBW "old" 4
        = some (S_OK, b)) ∧
      ContextMenu.GetCommandString id
          (ContextMenu.QueryContextMenu noPresets (sampleSelf sampleTree) [] 0 100 200 0).self
          1 GCS_VERBW "old" 4
        = some (S_OK, String.mk (e.DisplayName.toList.take (4 - 1))) ∧
      (e.DisplayName.toList.take (4 - 1)).length ≤ 4 - 1 ∧
      (∀ f ∈ [GCS_VALIDATEA, GCS_VALIDATEW, GCS_HELPTEXTA, GCS_HELPTEXTW],
        ContextMenu.GetCommandString id
            (ContextMenu.QueryContextMenu noPresets (sampleSelf sampleTree) [] 0 100 200 0).self
            1 f "old" 4
          = some (S_OK, "old")) ∧
      (GCS_VERBW ≠ GCS_VERBA → GCS_VERBW ≠ GCS_VERBW →
        ContextMenu.GetCommandString id
            (ContextMenu.QueryContextMenu noPresets (sampleSelf sampleTree) [] 0 100 200 0).self
            1 GCS_VERBW "old" 4
          = some (S_OK, "old"))) ∧
    (1 < 2147483648 → toInt32 1 = Int.ofNat 1)) ∧
    ContextMenu.GetCommandString id
        (ContextMenu.QueryContextMenu noPresets (sampleSelf sampleTree) [] 0 100 200 0).self
        1 GCS_VERBW "old" 4
      = some (S_OK, "Par") ∧
    ContextMenu.GetCommandString id
        (ContextMenu.QueryContextMenu noPresets (sampleSelf sampleTree) [] 0 100 200 0).self
        9 GCS_VERBW "old" 4
      = some (S_FALSE, "old") :=
  ⟨by decide,
   C13_command_string id
     (ContextMenu.QueryContextMenu noPresets (sampleSelf sampleTree) [] 0 100 200 0).self
     1 GCS_VERBW "old" 4 (by decide),
   rfl, rfl⟩

/-- C14: when the default-verb-only flag is set in the query flags or the configured
preset is 0, `QueryContextMenu` returns the success code with count 0, leaves the host
menu as it is (no entry and no separator is inserted) and leaves the instance, its index
included, unchanged. -/
theorem C14_declined_query (presets : Nat → String → List ContextMenuItem)
    (self : ContextMenu) (menu : HMENU) (index first last flags : Nat)
    (hdecl : (flags &&& CMF_DEFAULTONLY) ≠ 0 ∨ self.settings_.Preset = 0) :
    (ContextMenu.QueryContextMenu presets self menu index first last flags).hr
      = MAKE_SCODE SEVERITY_SUCCESS FACILITY_NULL 0 ∧
    (ContextMenu.QueryContextMenu presets self menu index first last flags).hr = 0 ∧
    (ContextMenu.QueryContextMenu presets self menu index first last flags).menu = menu ∧
    (ContextMenu.QueryContextMenu presets self menu index first last flags).self.items_
      = self.items_ ∧
    (ContextMenu.QueryContextMenu presets self menu index first last flags).self = self := by
  rw [Query_declined presets self menu index first last flags hdecl]
  exact ⟨rfl, rfl, rfl, rfl, rfl⟩

/-- Witness of C14: a query with `CMF_DEFAULTONLY` among its flags on an instance that
already holds an index, and a query on an instance whose preset is 0. -/
theorem C14_declined_query_witness :
    ((0x11 &&& CMF_DEFAULTONLY) ≠ 0 ∨ droppedSelf.settings_.Preset = 0) ∧
    ((ContextMenu.QueryContextMenu noPresets droppedSelf [HostItem.item 1 "Open" none none] 0
        100 200 0x11).hr = MAKE_SCODE SEVERITY_SUCCESS FACILITY_NULL 0 ∧
    (ContextMenu.QueryContextMenu noPresets droppedSelf [HostItem.item 1 "Open" none none] 0
        100 200 0x11).hr = 0 ∧
    (ContextMenu.QueryContextMenu noPresets droppedSelf [HostItem.item 1 "Open" none none] 0
        100 200 0x11).menu = [HostItem.item 1 "Open" none none] ∧
    (ContextMenu.QueryContextMenu noPresets droppedSelf [HostItem.item 1 "Open" none none] 0
        100 200 0x11).self.items_ = droppedSelf.items_ ∧
    (ContextMenu.QueryContextMenu noPresets droppedSelf [HostItem.item 1 "Open" none none] 0
        100 200 0x11).self = droppedSelf) :=
  ⟨Or.inl (by decide),
   C14_declined_query noPresets droppedSelf [HostItem.item 1 "Open" none none] 0 100 200 0x11
     (Or.inl (by decide))⟩

/-- C15: a new instance has reference count 1; `AddRef` increments the 32-bit count (by
one whenever the result fits in 32 bits) and returns the count after the increment;
`Release` decrements it (by one for a count of at least 1) and returns the count after the
decrement; and in every sequence of `AddRef` and `Release` calls on a live instance, a
call destroys the instance exactly when it is a `Release` that brings the count to 0, and
only the last call made can do so: never earlier, at most once. -/
theorem C15_reference_count (self : ContextMenu) (dll : Nat) (calls : List RefCall) :
    (∀ (count : Nat) (icon : Bool) (settings : ContextSettings) (program : String),
      (ContextMenu.ctor count icon settings program).1.objCount_ = 1) ∧
    ((ContextMenu.AddRef self).1.objCount_ = (self.objCount_ + 1) % 4294967296 ∧
      (ContextMenu.AddRef self).2 = (ContextMenu.AddRef self).1.objCount_ ∧
      (self.objCount_ + 1 < 4294967296 →
        (ContextMenu.AddRef self).2 = self.objCount_ + 1)) ∧
    ((ContextMenu.Release self dll).ret = udec self.objCount_ ∧
      (1 ≤ self.objCount_ → self.objCount_ < 4294967296 →
        (ContextMenu.Release self dll).ret = self.objCount_ - 1) ∧
      ((ContextMenu.Release self dll).self = none ↔ (ContextMenu.Release self dll).ret = 0) ∧
      (∀ s, (ContextMenu.Release self dll).self = some s →
        s.objCount_ = (ContextMenu.Release self dll).ret)) ∧
    ((∀ ev ∈ ContextMenu.refCalls self dll calls,
        (ev.destroyed = true ↔ (ev.call = RefCall.release ∧ ev.ret = 0))) ∧
      (∀ ev ∈ (ContextMenu.refCalls self dll calls).dropLast, ev.destroyed = false) ∧
      ((ContextMenu.refCalls self dll calls).filter (fun ev => ev.destroyed)).length ≤ 1) := by
  have hrel : (ContextMenu.Release self dll).ret = udec self.objCount_ := by
    unfold ContextMenu.Release
    by_cases h : udec self.objCount_ = 0 <;> simp [h]
  obtain ⟨hev1, hev2⟩ := refCalls_events calls self dll
  refine ⟨fun _ _ _ _ => rfl, ⟨rfl, rfl, ?_⟩, ⟨hrel, ?_, Release_none_iff self dll, ?_⟩,
    hev1, hev2, ?_⟩
  · intro h
    show (self.objCount_ + 1) % 4294967296 = self.objCount_ + 1
    exact Nat.mod_eq_of_lt h
  · intro h1 h2
    rw [hrel]
    unfold udec
    omega
  · intro s hs
    rw [hrel]
    unfold ContextMenu.Release at hs
    by_cases h : udec self.objCount_ = 0
    · simp [h] at hs
    · simp only [ne_eq, h, not_false_eq_true, if_true, Option.some.injEq] at hs
      rw [← hs]
  · have hsplit := List.dropLast_append_getLast? (l := ContextMenu.refCalls self dll calls)
    cases hlast : (ContextMenu.refCalls self dll calls).getLast? with
    | none =>
      have hnil : ContextMenu.refCalls self dll calls = [] := List.getLast?_eq_none_iff.mp hlast
      simp [hnil]
    | some a =>
      have hdecomp := hsplit a hlast
      rw [← hdecomp, List.filter_append]
      have hzero : ((ContextMenu.refCalls self dll calls).dropLast.filter
          (fun ev => ev.destroyed)) = [] := by
        rw [List.filter_eq_nil_iff]
        intro ev hev
        simp [hev2 ev hev]
      rw [hzero, List.nil_append]
      exact (List.length_filter_le _ _).trans (by simp)

/-- Witness of C15: a fresh instance (count 1) served `AddRef`, `AddRef`, `Release`,
`Release`, `Release`, `AddRef`: the counts returned are 2, 3, 2, 1 and 0, the third
`Release` destroys the instance and the last call is not made. -/
theorem C15_reference_count_witness :
    ((sampleSelf sampleTree).objCount_ + 1 < 4294967296 ∧ 1 ≤ (sampleSelf sampleTree).objCount_) ∧
    (ContextMenu.AddRef (sampleSelf sampleTree)).2 = (sampleSelf sampleTree).objCount_ + 1 ∧
    (ContextMenu.Release (sampleSelf sampleTree) 1).ret = (sampleSelf sampleTree).objCount_ - 1 ∧
    (ContextMenu.Release (sampleSelf sampleTree) 1).self = none ∧
    ContextMenu.refCalls (sampleSelf sampleTree) 1
        [RefCall.addRef, RefCall.addRef, RefCall.release, RefCall.release, RefCall.release,
         RefCall.addRef]
      = [⟨RefCall.addRef, 2, false⟩, ⟨RefCall.addRef, 3, false⟩, ⟨RefCall.release, 2, false⟩,
         ⟨RefCall.release, 1, false⟩, ⟨RefCall.release, 0, true⟩] :=
  ⟨⟨by decide, by decide⟩,
   (C15_reference_count (sampleSelf sampleTree) 1 []).2.1.2.2 (by decide),
   (C15_reference_count (sampleSelf sampleTree) 1 []).2.2.1.2.1 (by decide) (by decide),
   rfl, rfl⟩

/-- C16: `QueryInterface` returns `NOERROR`, stores a non-null pointer and takes one
reference (the count becomes the count after one `AddRef`) exactly when the requested
identifier is `IID_IUnknown`, `IID_IContextMenu` or `IID_IShellExtInit`; for every other
identifier it returns `E_NOINTERFACE`, stores null and leaves the instance, its reference
count included, unchanged. -/
theorem C16_query_interface (self : ContextMenu) (iid : Nat) :
    (((ContextMenu.QueryInterface self iid).hr = NOERROR ∧
        (ContextMenu.QueryInterface self iid).obj ≠ none ∧
        (ContextMenu.QueryInterface self iid).self = (ContextMenu.AddRef self).1)
      ↔ (iid = IID_IUnknown ∨ iid = IID_IContextMenu ∨ iid = IID_IShellExtInit)) ∧
    ((iid = IID_IUnknown ∨ iid = IID_IContextMenu ∨ iid = IID_IShellExtInit) →
      (ContextMenu.QueryInterface self iid).self.objCount_
        = (self.objCount_ + 1) % 4294967296 ∧
      (self.objCount_ + 1 < 4294967296 →
        (ContextMenu.QueryInterface self iid).self.objCount_ = self.objCount_ + 1)) ∧
    (¬ (iid = IID_IUnknown ∨ iid = IID_IContextMenu ∨ iid = IID_IShellExtInit) →
      (ContextMenu.QueryInterface self iid).hr = E_NOINTERFACE ∧
      (ContextMenu.QueryInterface self iid).obj = none ∧
      (ContextMenu.QueryInterface self iid).self = self) := by
  by_cases h1 : iid = IID_IUnknown
  · subst h1
    simp [ContextMenu.QueryInterface, ContextMenu.AddRef]
  · by_cases h2 : iid = IID_IContextMenu
    · subst h2
      simp [ContextMenu.QueryInterface, ContextMenu.AddRef, h1]
    · by_cases h3 : iid = IID_IShellExtInit
      · subst h3
        simp [ContextMenu.QueryInterface, ContextMenu.AddRef, h1, h2]
      · simp [ContextMenu.QueryInterface, h1, h2, h3, E_NOINTERFACE, NOERROR]

/-- Witness of C16: `IID_IShellExtInit` is granted with the count going from 1 to 2, and
the identifier of `IContextMenu2`, `{000214F4-0000-0000-C000-000000000046}`, is refused. -/
theorem C16_query_interface_witness :
    (IID_IShellExtInit = IID_IUnknown ∨ IID_IShellExtInit = IID_IContextMenu ∨
      IID_IShellExtInit = IID_IShellExtInit) ∧
    ((ContextMenu.QueryInterface (sampleSelf sampleTree) IID_IShellExtInit).self.objCount_
        = ((sampleSelf sampleTree).objCount_ + 1) % 4294967296 ∧
      ((sampleSelf sampleTree).objCount_ + 1 < 4294967296 →
        (ContextMenu.QueryInterface (sampleSelf sampleTree) IID_IShellExtInit).self.objCount_
          = (sampleSelf sampleTree).objCount_ + 1)) ∧
    ContextMenu.QueryInterface (sampleSelf sampleTree) IID_IShellExtInit
      = ⟨NOERROR, some InterfacePtr.shellExtInit,
          { sampleSelf sampleTree with objCount_ := 2 }⟩ ∧
    ContextMenu.QueryInterface (sampleSelf sampleTree) 0x000214F400000000C000000000000046
      = ⟨E_NOINTERFACE, none, sampleSelf sampleTree⟩ :=
  ⟨Or.inr (Or.inr rfl),
   (C16_query_interface (sampleSelf sampleTree) IID_IShellExtInit).2.1 (Or.inr (Or.inr rfl)),
   rfl, rfl⟩

/-- C17: `GetCommandString` and `InvokeCommand` leave the instance as it is (index,
selection and drop target included), so after any sequence of such calls every offset
resolves as before: `GetCommandString` and `InvokeCommand` give the same result for the
same arguments, the same entry or the same miss. -/
theorem C17_lookups_leave_state (self : ContextMenu) (calls : List HostCall) :
    (∀ c : HostCall,
      (ContextMenu.afterCall self c).items_ = self.items_ ∧
      (ContextMenu.afterCall self c).files_ = self.files_ ∧
      (ContextMenu.afterCall self c).drop_ = self.drop_) ∧
    ((ContextMenu.afterCalls self calls).items_ = self.items_ ∧
      (ContextMenu.afterCalls self calls).files_ = self.files_ ∧
      (ContextMenu.afterCalls self calls).drop_ = self.drop_) ∧
    (∀ k : Int, (ContextMenu.afterCalls self calls).items_.find k = self.items_.find k) ∧
    (∀ (toMultiByte : String → String) (index flags : Nat) (buffer : String) (size : Nat),
      ContextMenu.GetCommandString toMultiByte (ContextMenu.afterCalls self calls) index flags
          buffer size
        = ContextMenu.GetCommandString toMultiByte self index flags buffer size) ∧
    (∀ (createProcess : String → Bool) (lpVerb : Nat),
      ContextMenu.InvokeCommand createProcess (ContextMenu.afterCalls self calls) lpVerb
        = ContextMenu.InvokeCommand createProcess self lpVerb) := by
  rw [afterCalls_eq calls self]
  refine ⟨?_, ⟨rfl, rfl, rfl⟩, fun _ => rfl, fun _ _ _ _ _ => rfl, fun _ _ => rfl⟩
  intro c
  cases c <;> exact ⟨rfl, rfl, rfl⟩

/-- Counterexample to C18 as stated. First half: on an instance with the drop target
`D:\Out` a query that is not declined inserts the entry and the trailing separator only;
no leading separator is put at the insertion position 1. Second half, without a drop
target: from the insertion position `4294967295` the position cursor wraps; the leading
separator is appended after `Open` and the entries land at the positions 0 and 1, in front
of it. -/
theorem C18_counterexample :
    (droppedSelf.drop_ = "D:\\Out" ∧
      ContextMenu.QueryContextMenu noPresets droppedSelf [HostItem.item 1 "Open" none none] 1
          100 200 0
        = ⟨1, droppedSelf,
           [HostItem.item 1 "Open" none none, HostItem.item 100 "Extract" none none,
            HostItem.separator]⟩) ∧
    (ContextMenu.QueryContextMenu noPresets (sampleSelf pairTree)
        [HostItem.item 1 "Open" none none] 4294967295 100 200 0).menu
      = [HostItem.item 100 "A" none none, HostItem.item 101 "B" none none,
         HostItem.separator, HostItem.item 1 "Open" none none, HostItem.separator] :=
  ⟨⟨rfl, rfl⟩, rfl⟩

/-- C18 (as amended): for a `QueryContextMenu` call that is not declined and wraps neither
the identifier cursor nor the position cursor, the host menu afterwards is the menu before
with one block spliced in at the insertion position (at the end when the position is past
it): a leading separator exactly when no drop target is set, then the top-level items of
the tree, then a trailing separator exactly when the returned count is positive. The items
of the tree are those the list `Insert` puts into an empty container; none of them is a
separator, and there is none when the count is 0. -/
theorem C18_separators (presets : Nat → String → List ContextMenuItem) (self : ContextMenu)
    (menu : HMENU) (index first last flags : Nat)
    (hf : (flags &&& CMF_DEFAULTONLY) = 0) (hp : self.settings_.Preset ≠ 0)
    (hid : first + validCountList (ContextMenu.selected presets self) < 4294967296)
    (hpos : index + (ContextMenu.selected presets self).length + 1 < 4294967296) :
    (ContextMenu.QueryContextMenu presets self menu index first last flags).menu
      = menu.take index
          ++ ((if self.drop_.isEmpty = true then [HostItem.separator] else [])
              ++ (ContextMenu.InsertList self.icon_ first (ContextMenu.selected presets self)
                    [] 0 first self.items_).dest
              ++ (if 0 < (ContextMenu.QueryContextMenu presets self menu index first last
                    flags).hr
                  then [HostItem.separator] else []))
          ++ menu.drop index ∧
    (∀ it ∈ (ContextMenu.InsertList self.icon_ first (ContextMenu.selected presets self)
          [] 0 first self.items_).dest, it ≠ HostItem.separator) ∧
    ((ContextMenu.QueryContextMenu presets self menu index first last flags).hr = 0 →
      (ContextMenu.InsertList self.icon_ first (ContextMenu.selected presets self)
          [] 0 first self.items_).dest = []) := by
  have hkv := keptCountList_le_validCountList (ContextMenu.selected presets self)
  have hnw : first + keptCountList (ContextMenu.selected presets self) < 4294967296 := by
    omega
  obtain ⟨_, _, _, hhr, _⟩ := Query_eq presets self menu index first last flags hf hp hnw
  have hfresh := InsertList_fresh self.icon_ first (ContextMenu.selected presets self) first
    self.items_ hnw
  rw [hfresh, hhr]
  refine ⟨Query_menu_exact presets self menu index first last flags hf hp hnw hpos,
    builtList_no_separator self.icon_ (ContextMenu.selected presets self) first, ?_⟩
  intro h0
  have hlen := builtList_length_le self.icon_ (ContextMenu.selected presets self) first
  rw [h0] at hlen
  exact List.length_eq_zero.mp (Nat.le_zero.mp hlen)

/-- Witness of C18: the sample tree inserted at position 1 of a host menu of two items. -/
theorem C18_separators_witness :
    ((0 &&& CMF_DEFAULTONLY) = 0 ∧ (sampleSelf sampleTree).settings_.Preset ≠ 0 ∧
      100 + validCountList (ContextMenu.selected noPresets (sampleSelf sampleTree))
        < 4294967296 ∧
      1 + (ContextMenu.selected noPresets (sampleSelf sampleTree)).length + 1 < 4294967296) ∧
    (ContextMenu.QueryContextMenu noPresets (sampleSelf sampleTree)
        [HostItem.item 1 "Open" none none, HostItem.item 2 "Copy" none none] 1 100 200 0).menu
      = [HostItem.item 1 "Open" none none].take 1
          ++ ((if (sampleSelf sampleTree).drop_.isEmpty = true then [HostItem.separator] else [])
              ++ (ContextMenu.InsertList (sampleSelf sampleTree).icon_ 100
                    (ContextMenu.selected noPresets (sampleSelf sampleTree))
                    [] 0 100 (sampleSelf sampleTree).items_).dest
              ++ (if 0 < (ContextMenu.QueryContextMenu noPresets (sampleSelf sampleTree)
                    [HostItem.item 1 "Open" none none, HostItem.item 2 "Copy" none none] 1 100
                    200 0).hr
                  then [HostItem.separator] else []))
          ++ [HostItem.item 2 "Copy" none none] ∧
    (ContextMenu.QueryContextMenu noPresets (sampleSelf sampleTree)
        [HostItem.item 1 "Open" none none, HostItem.item 2 "Copy" none none] 1 100 200 0).menu
      = [HostItem.item 1 "Open" none none, HostItem.separator,
         HostItem.item 100 "Leaf" none none,
         HostItem.item 101 "Parent" none
           (some [HostItem.item 102 "Child1" none none, HostItem.item 103 "Child2" none none,
                  HostItem.item 104 "Child3" none none]),
         HostItem.separator, HostItem.item 2 "Copy" none none] :=
  ⟨⟨by decide, by decide, by decide, by decide⟩,
   (C18_separators noPresets (sampleSelf sampleTree)
     [HostItem.item 1 "Open" none none, HostItem.item 2 "Copy" none none] 1 100 200 0
     (by decide) (by decide) (by decide) (by decide)).1,
   rfl⟩

/-- Counterexample to C19 as stated (no condition on the cursors): every leaf of `wrapTree`
has a file name, but from `first = 4294967294` the identifier cursor wraps below `P`, so
`P` is dropped with its child: the container holds `D` and `E` only, it does not mirror
the tree, and the insertion position advances by 2, not by the 3 top-level entries. -/
theorem C19_counterexample :
    leavesNamedList wrapTree = true ∧
    (ContextMenu.InsertList false 4294967294 wrapTree [] 0 4294967294 []).dest
      = [HostItem.item 4294967294 "D" none none, HostItem.item 4294967295 "E" none none] ∧
    mirrorsList wrapTree
      (ContextMenu.InsertList false 4294967294 wrapTree [] 0 4294967294 []).dest = false ∧
    (ContextMenu.InsertList false 4294967294 wrapTree [] 0 4294967294 []).index = 2 ∧
    wrapTree.length = 3 :=
  ⟨by decide, rfl, by decide, by decide, by decide⟩

/-- C19 (as amended): for a tree in which every leaf has a non-empty file name, inserted
without wrap-around of the identifier cursor and of the position cursor, the target
container afterwards is the container before with one block spliced in at the insertion
position (at the end when the position is past it); the block mirrors the tree: one
string item per top-level entry, in declaration order, with the display name as text, no
submenu for a leaf and, for an entry with children, a submenu that mirrors the children
from position 0 on, recursively; the k-th top-level entry stands at position `index + k`
when the insertion position lies within the container; and the insertion position is
advanced by the number of top-level entries. -/
theorem C19_menu_mirrors_tree (icon : Bool) (first : Nat) (tree : List ContextMenuItem)
    (dest : HMENU) (index c : Nat) (items : ContextMenuMap)
    (hleaves : leavesNamedList tree = true)
    (hid : c + validCountList tree < 4294967296)
    (hpos : index + tree.length < 4294967296) :
    ∃ block : List HostItem,
      (ContextMenu.InsertList icon first tree dest index c items).dest
        = dest.take index ++ block ++ dest.drop index ∧
      mirrorsList tree block = true ∧
      block.length = tree.length ∧
      (index ≤ dest.length → ∀ k, k < tree.length →
        (ContextMenu.InsertList icon first tree dest index c items).dest[index + k]?
          = block[k]?) ∧
      (ContextMenu.InsertList icon first tree dest index c items).index
        = index + tree.length := by
  have hkv := keptCountList_le_validCountList tree
  have hnw : c + keptCountList tree < 4294967296 := by omega
  obtain ⟨hm, _⟩ := builtList_mirrors icon tree c hleaves
  have hlen := mirrorsList_length tree _ hm
  have hsplice := pushAll_splice (builtList icon tree c) dest index (by omega)
  have hdest : (ContextMenu.InsertList icon first tree dest index c items).dest
      = dest.take index ++ builtList icon tree c ++ dest.drop index := by
    rw [ContextMenu.InsertList, InsertFrom_eq icon first c tree dest index c items hnw]
    exact congrArg Prod.fst hsplice
  refine ⟨builtList icon tree c, hdest, hm, hlen, ?_, ?_⟩
  · intro hle k hk
    rw [hdest, List.append_assoc]
    have htake : (dest.take index).length = index := by
      simp [List.length_take, Nat.min_eq_left hle]
    rw [List.getElem?_append_right (by omega), htake, Nat.add_sub_cancel_left,
      List.getElem?_append_left (by omega)]
  · rw [ContextMenu.InsertList, InsertFrom_eq icon first c tree dest index c items hnw]
    show (pushAll dest index (builtList icon tree c)).2 = index + tree.length
    rw [hsplice, hlen]

/-- Witness of C19: the sample tree inserted at position 1 of a container of two items. -/
theorem C19_menu_mirrors_tree_witness :
    (leavesNamedList sampleTree = true ∧ 100 + validCountList sampleTree < 4294967296 ∧
      1 + sampleTree.length < 4294967296) ∧
    (∃ block : List HostItem,
      (ContextMenu.InsertList false 100 sampleTree
          [HostItem.item 1 "Open" none none, HostItem.item 2 "Copy" none none] 1 100 []).dest
        = [HostItem.item 1 "Open" none none, HostItem.item 2 "Copy" none none].take 1 ++ block
            ++ [HostItem.item 1 "Open" none none, HostItem.item 2 "Copy" none none].drop 1 ∧
      mirrorsList sampleTree block = true ∧
      block.length = sampleTree.length ∧
      (1 ≤ [HostItem.item 1 "Open" none none, HostItem.item 2 "Copy" none none].length →
        ∀ k, k < sampleTree.length →
        (ContextMenu.InsertList false 100 sampleTree
          [HostItem.item 1 "Open" none none, HostItem.item 2 "Copy" none none] 1 100
          []).dest[1 + k]? = block[k]?) ∧
      (ContextMenu.InsertList false 100 sampleTree
          [HostItem.item 1 "Open" none none, HostItem.item 2 "Copy" none none] 1 100 []).index
        = 1 + sampleTree.length) ∧
    (ContextMenu.InsertList false 100 sampleTree
        [HostItem.item 1 "Open" none none, HostItem.item 2 "Copy" none none] 1 100 []).dest
      = [HostItem.item 1 "Open" none none,
         HostItem.item 100 "Leaf" none none,
         HostItem.item 101 "Parent" none
           (some [HostItem.item 102 "Child1" none none, HostItem.item 103 "Child2" none none,
                  HostItem.item 104 "Child3" none none]),
         HostItem.item 2 "Copy" none none] :=
  ⟨⟨by decide, by decide, by decide⟩,
   C19_menu_mirrors_tree false 100 sampleTree
     [HostItem.item 1 "Open" none none, HostItem.item 2 "Copy" none none] 1 100 []
     (by decide) (by decide) (by decide),
   rfl⟩

/-- C20: without wrap-around of the identifier cursor, the single-entry `Insert` returns
true exactly when the entry is effectively insertable (a childless entry with a non-empty
file name, or an entry with at least one effectively insertable child). In that case it
consumes identifiers (the cursor advances by the number of effectively insertable entries
at and below the entry, at least one), inserts one item with the identifier `cmdid` and
the display name at the insertion position, advances the position by one and records the
entry under the offset `cmdid - first` when that offset is free. Otherwise the entry is
dropped with its whole subtree, its own file name notwithstanding: container, position,
cursor and index stay as they are. For a tree the count of identifiers consumed equals
the number of effectively insertable entries. -/
theorem C20_insert_iff_insertable (icon : Bool) (first : Nat) (e : ContextMenuItem)
    (tree : List ContextMenuItem) (dest : HMENU) (index c : Nat) (items : ContextMenuMap)
    (hfirst : first ≤ c)
    (hnowrap : c + validCount e < 4294967296)
    (htree : first + validCountList tree < 4294967296) :
    (ContextMenu.Insert icon first e dest index c items).ret = insertable e ∧
    (insertable e = true →
      c < (ContextMenu.Insert icon first e dest index c items).cmdid ∧
      (ContextMenu.Insert icon first e dest index c items).cmdid = c + insertableCount e ∧
      (∃ sub, (ContextMenu.Insert icon first e dest index c items).dest
        = insertByPosition dest index
            (HostItem.item c e.DisplayName
              (if !e.IconLocation.isEmpty && icon then some e.IconLocation else none) sub)) ∧
      (ContextMenu.Insert icon first e dest index c items).index
        = (index + 1) % 4294967296 ∧
      (items.find (toInt32 (usub c first)) = none →
        (ContextMenu.Insert icon first e dest index c items).items.find
            (toInt32 (usub c first)) = some e)) ∧
    (insertable e = false →
      ContextMenu.Insert icon first e dest index c items = ⟨false, dest, index, c, items⟩) ∧
    usub (ContextMenu.InsertList icon first tree dest index first items).cmdid first
      = insertableCountList tree := by
  have hkv := keptCount_le_validCount e
  have hnw : c + keptCount e < 4294967296 := by omega
  obtain ⟨hins, hcount⟩ := insertable_kept e
  have heq := Insert_eq icon first e dest index c items hnw
  refine ⟨?_, ?_, ?_, ?_⟩
  · rw [heq, hins]
  · intro hi
    rw [hins, decide_eq_true_eq] at hi
    have hk : keptCount e ≠ 0 := by omega
    rw [heq, hcount]
    refine ⟨by show c < c + keptCount e; omega, rfl, ?_, ?_, ?_⟩
    · refine ⟨(if e.Children.isEmpty then none
          else some (builtList icon e.Children (c + 1))), ?_⟩
      show (pushAll dest index (built icon e c)).1 = _
      rw [built_of_kept icon e c hk]
      rfl
    · show (pushAll dest index (built icon e c)).2 = _
      rw [built_of_kept icon e c hk]
      rfl
    · intro hfree
      exact recorded_parent_found first e c items hk hfirst hnw hfree
  · intro hi
    rw [hins, decide_eq_false_iff_not] at hi
    exact Insert_skip icon first e dest index c items (by omega)
  · have hkl := keptCountList_le_validCountList tree
    rw [ContextMenu.InsertList,
      InsertFrom_eq icon first first tree dest index first items (by omega),
      (insertableAny_kept tree).2]
    exact usub_add_left first _ (by omega)

/-- Witness of C20: the entry `Parent` of the sample tree at cursor 101 (its three
children are insertable, so it is, and four identifiers are consumed), and the sample tree
as a whole from 100. -/
theorem C20_insert_iff_insertable_witness :
    (100 ≤ 101 ∧
      101 + validCount (.mk "Parent" "parent.exe" "" ""
        [.mk "Child1" "c1.exe" "/a" "" [], .mk "Child2" "c2.exe" "/b" "" [],
         .mk "Child3" "c3.exe" "/c" "" []]) < 4294967296 ∧
      100 + validCountList sampleTree < 4294967296) ∧
    ((ContextMenu.Insert false 100 (.mk "Parent" "parent.exe" "" ""
        [.mk "Child1" "c1.exe" "/a" "" [], .mk "Child2" "c2.exe" "/b" "" [],
         .mk "Child3" "c3.exe" "/c" "" []]) [] 0 101 []).ret
      = insertable (.mk "Parent" "parent.exe" "" ""
        [.mk "Child1" "c1.exe" "/a" "" [], .mk "Child2" "c2.exe" "/b" "" [],
         .mk "Child3" "c3.exe" "/c" "" []])) ∧
    usub (ContextMenu.InsertList false 100 sampleTree [] 0 100 []).cmdid 100
      = insertableCountList sampleTree ∧
    (ContextMenu.Insert false 100 (.mk "Parent" "parent.exe" "" ""
        [.mk "Child1" "c1.exe" "/a" "" [], .mk "Child2" "c2.exe" "/b" "" [],
         .mk "Child3" "c3.exe" "/c" "" []]) [] 0 101 []).cmdid = 105 ∧
    insertableCountList sampleTree = 5 ∧
    insertable (.mk "P" "p.exe" "" "" [.mk "X" "" "" "" []]) = false :=
  ⟨⟨by decide, by decide, by decide⟩,
   (C20_insert_iff_insertable false 100 (.mk "Parent" "parent.exe" "" ""
        [.mk "Child1" "c1.exe" "/a" "" [], .mk "Child2" "c2.exe" "/b" "" [],
         .mk "Child3" "c3.exe" "/c" "" []]) sampleTree [] 0 101 []
      (by decide) (by decide) (by decide)).1,
   (C20_insert_iff_insertable false 100 (.mk "Parent" "parent.exe" "" ""
        [.mk "Child1" "c1.exe" "/a" "" [], .mk "Child2" "c2.exe" "/b" "" [],
         .mk "Child3" "c3.exe" "/c" "" []]) sampleTree [] 0 101 []
      (by decide) (by decide) (by decide)).2.2.2,
   by decide, by decide, by decide⟩

end Cube.FileSystem.Ice
